import Mathlib

/-!
# Authentication core of the REST server

A shallow embedding of the access gate (`middlewares/auth.go`), the signup, login
and "who am I" handlers (`handlers/auth.go`, `handlers/main.go`), the Postgres user
store (`database/postgres/user.go`), the server constructor (`server/server.go`) and
the category lookups and update (`handlers/category.go`,
`database/postgres/category.go`).

Conventions of the embedding:

* a handler is a function from the request to the list of effects it performs, in
  program order, on the response writer, the logger, the next handler and the
  token parser, together with the writes it asks of the store;
* calls that leave the repository (the JWT package, bcrypt, the JSON decoder, the
  clock, the SQL driver) are parameters, gathered in `Lib`, `CategoryLib`, `DB`
  and `CategoryDB`;
* a Go `error` is an `Option String`, `none` being `nil`;
* instants are integers counting nanoseconds since the Unix epoch.
-/

namespace RestWs

/-! ## Values shared by the packages -/

/-- A Go `error`: `none` is `nil`, `some msg` is an error whose text is `msg`. -/
abbrev GoError := Option String

/-- Modelled from the spec: `models.User` (package `models` is not among the
sources). The three fields are the ones the handlers read and the SQL statements
of `database/postgres/user.go` bind: identifier, email and stored password hash. -/
structure User where
  Id : String
  Email : String
  Password : String
deriving DecidableEq

/-- Modelled from the spec: `models.AppClaims` (package `models` is not among the
sources): the subject identifier and the `ExpiresAt` field (Unix seconds) of the
embedded `jwt.StandardClaims`, the two fields `LoginHandler` fills. -/
structure AppClaims where
  UserId : String
  ExpiresAt : Int
deriving DecidableEq

/-- The server configuration, `server.Config`. -/
structure Config where
  Port : String
  JwtSecret : String
  DatabaseURL : String
deriving DecidableEq

/-- The request body of signup and login, `handlers.SignUpLoginRequest`. -/
structure SignUpLoginRequest where
  Email : String
  Password : String
deriving DecidableEq

/-- The body answered by signup and by `/me`, `handlers.SignUpResponse`. -/
structure SignUpResponse where
  Id : String
  Email : String
deriving DecidableEq

/-- The body answered by login, `handlers.LoginResponse`. -/
structure LoginResponse where
  Token : String
deriving DecidableEq

/-- The parts of `*http.Request` the handlers read: `r.URL.Path`, `r.Header`
(a map from canonical key to the list of its values) and `r.Body`. -/
structure Request where
  Path : String
  Header : List (String × List String)
  Body : String
deriving DecidableEq

/-- The method `http.Header.Get`: the first value stored under the key, or the
empty string when the key is absent or holds no value. -/
def Header.Get (h : List (String × List String)) (key : String) : String :=
  match h.lookup key with
  | some (v :: _) => v
  | _ => ""

/-- Modelled from the spec: `models.Category` (package `models` is not among the
sources). The four fields are the ones the scans of `database/postgres/category.go`
bind; the identifier is an `int64` and the two time stamps are kept as instants. -/
structure Category where
  Id : Int
  Name : String
  CreatedAt : Int
  UpdatedAt : Int
deriving DecidableEq

/-- The request body of the category update, `handlers.UpdateCategoryRequest`. -/
structure UpdateCategoryRequest where
  ID : Int
  Name : String
deriving DecidableEq

/-- The body answered by the category update, `handlers.UpdateCategoryResponse`. -/
structure UpdateCategoryResponse where
  ID : Int
  Name : String
deriving DecidableEq

/-- What a handler does, in program order. -/
inductive Effect where
  /-- The call `next.ServeHTTP(w, r)`. -/
  | next
  /-- The call `http.Error(w, msg, code)`, which answers the status `code` with the
  plain-text message `msg`. -/
  | httpError (msg : String) (code : Nat)
  /-- The call `w.WriteHeader(code)`. -/
  | writeHeader (code : Nat)
  /-- The call `w.Write([]byte(body))`. -/
  | write (body : String)
  /-- The call `w.Header().Set(key, value)`. -/
  | setHeader (key value : String)
  /-- The call `json.NewEncoder(w).Encode(resp)` on a `SignUpResponse`. -/
  | encodeSignUpResponse (resp : SignUpResponse)
  /-- The call `json.NewEncoder(w).Encode(resp)` on a `LoginResponse`. -/
  | encodeLoginResponse (resp : LoginResponse)
  /-- The call `log.Println(err)`. -/
  | logPrintln (msg : String)
  /-- The call `jwt.ParseWithClaims(tokenString, ..)` whose key function returns `key`. -/
  | parseWithClaims (tokenString key : String)
  /-- The call `repository.InsertUser(ctx, user)`. -/
  | insertUser (user : User)
  /-- The call `repository.UpdateCategory(ctx, category)`. -/
  | updateCategory (category : Category)
  /-- The call `json.NewEncoder(w).Encode(res)` on a `GetCategoryResponse`. -/
  | encodeGetCategoryResponse (category : Category)
  /-- The call `json.NewEncoder(w).Encode(res)` on an `UpdateCategoryResponse`. -/
  | encodeUpdateCategoryResponse (resp : UpdateCategoryResponse)
deriving DecidableEq

/-! ## Package `strings` -/

/-- The predicate `unicode.IsSpace`: the Latin-1 spaces tab, line feed, vertical
tab, form feed, carriage return, space, U+0085 and U+00A0, and beyond Latin-1 the
code points with the Unicode White_Space property. -/
def isSpace (c : Char) : Bool :=
  let n := c.toNat
  (0x09 ≤ n && n ≤ 0x0D) || n == 0x20 || n == 0x85 || n == 0xA0 || n == 0x1680 ||
    (0x2000 ≤ n && n ≤ 0x200A) || n == 0x2028 || n == 0x2029 || n == 0x202F ||
    n == 0x205F || n == 0x3000

/-- The function `strings.TrimSpace`: the string without its leading and trailing
white space, white space being what `unicode.IsSpace` accepts. -/
def TrimSpace (s : String) : String :=
  ⟨((s.data.dropWhile isSpace).reverse.dropWhile isSpace).reverse⟩

/-! ## Package `time` -/

/-- The constant `time.Hour`, in nanoseconds. -/
def Hour : Int := 3600 * 1000000000

/-- The method `Time.Unix`: the whole seconds elapsed since the epoch (rounded down). -/
def Unix (t : Int) : Int := t / 1000000000

/-! ## Calls that leave the repository -/

/-- Modelled from the spec: the kinds of failure of token validation (spec 4.2,
`AuthError`); the error type of the JWT package is not among the sources. -/
inductive ValidationError where
  | malformed
  | signatureInvalid
  | expired
deriving DecidableEq

/-- What the handlers read of a parsed `*jwt.Token`: the outcome of the type
assertion `token.Claims.(*models.AppClaims)` (`none` when it fails) and the field
`token.Valid`. -/
structure Token where
  Claims : Option AppClaims
  Valid : Bool
deriving DecidableEq

/-- The calls into third-party packages and the standard library, as parameters.
`ParseWithClaims tokenString key` is `jwt.ParseWithClaims` with a key function
returning `key`; `SignedString claims key` is `jwt.NewWithClaims(HS256, claims)`
followed by `SignedString(key)`; `CompareHashAndPassword hash password` and
`GenerateFromPassword password` are the bcrypt calls; `NewRandom` is
`ksuid.NewRandom` followed by `String`; `jsonDecode body` is the JSON decoder run on
the request body; `Now` is the reading of `time.Now()`. -/
structure Lib where
  ParseWithClaims : String → String → Except ValidationError Token
  SignedString : AppClaims → String → Except String String
  CompareHashAndPassword : String → String → GoError
  GenerateFromPassword : String → Except String String
  NewRandom : Except String String
  jsonDecode : String → Except String SignUpLoginRequest
  Now : Int

/-- The interface `repository.Repository` restricted to the user store; each method
returns the Go pair (pointer, error). The package-level functions of `repository`
forward to the implementation set by `SetRepository`. -/
structure Repository where
  InsertUser : User → GoError
  GetUserById : String → Option User × GoError
  GetUserByEmail : String → Option User × GoError

/-! ## Package `postgres` -/

/-- A result set `*sql.Rows` over the users table: for each row that `rows.Next()`
announces, the outcome of `rows.Scan` into the three fields, and the value of
`rows.Err()` once the iteration has stopped. -/
structure Rows where
  scans : List (Except String User)
  Err : GoError

/-- The database handle `*sql.DB`: `QueryContext query arg` and
`ExecContext query args`, as answered by the driver. -/
structure DB where
  QueryContext : String → String → Except String Rows
  ExecContext : String → List String → GoError

/-- The `for rows.Next()` loop of `extractUserFromResult`: every scanned row
overwrites `user`; a failing scan leaves the function with an error. -/
def extractUserFromResultLoop : List (Except String User) → User → Except String User
  | [], user => .ok user
  | .error err :: _, _ => .error ("error scanning user row at GetUserByEmail: " ++ err)
  | .ok row :: rest, _ => extractUserFromResultLoop rest row

/-- Extracts a user from a result: `.error e` stands for the return `(nil, e)` and
`.ok user` for `(&user, nil)`, the only two shapes the function returns. The
variable `user` starts as the zero value `models.User{}`. The deferred
`rows.Close()` only prints when closing fails and is left out. -/
def extractUserFromResult (rows : Rows) : Except String User :=
  match extractUserFromResultLoop rows.scans ⟨"", "", ""⟩ with
  | .error err => .error err
  | .ok user =>
    match rows.Err with
    | some err => .error ("error iterating over rows: " ++ err)
    | none => .ok user

/-- The method `PostgresRepository.InsertUser`. -/
def PostgresRepository.InsertUser (db : DB) (user : User) : GoError :=
  match db.ExecContext "INSERT INTO users (id, email, password) VALUES ($1, $2, $3)"
      [user.Id, user.Email, user.Password] with
  | some err => some ("error inserting user: " ++ err)
  | none => none

/-- The method `PostgresRepository.GetUserById`. -/
def PostgresRepository.GetUserById (db : DB) (id : String) : Option User × GoError :=
  match db.QueryContext "SELECT id, email, password FROM users WHERE id = $1" id with
  | .error err => (none, some ("error getting user at GetUserById: " ++ err))
  | .ok rows =>
    match extractUserFromResult rows with
    | .error err => (none, some ("error getting user at GetUserById: " ++ err))
    | .ok user => (some { user with Password := "" }, none)

/-- The method `PostgresRepository.GetUserByEmail`. -/
def PostgresRepository.GetUserByEmail (db : DB) (email : String) : Option User × GoError :=
  match db.QueryContext "SELECT id, email, password FROM users WHERE email = $1" email with
  | .error err => (none, some ("error getting user at GetUserByEmail: " ++ err))
  | .ok rows =>
    match extractUserFromResult rows with
    | .error err => (none, some err)
    | .ok user => (some user, none)

/-- The Postgres implementation of the repository over a database handle. -/
def PostgresRepository (db : DB) : Repository where
  InsertUser := PostgresRepository.InsertUser db
  GetUserById := PostgresRepository.GetUserById db
  GetUserByEmail := PostgresRepository.GetUserByEmail db

/-! ## Package `middlewares` -/

/-- The list of paths that do not need authentication. -/
def NO_AUTH_NEEDED : List String := ["/", "/signup", "/login"]

/-- The `for _, path := range` loop of `shouldCheckToken`: `false` at the first
entry equal to the route, `true` when the entries are exhausted. -/
def shouldCheckTokenLoop : List String → String → Bool
  | [], _ => true
  | path :: rest, route => if path == route then false else shouldCheckTokenLoop rest route

/-- Whether the token of a request to `route` has to be checked. -/
def shouldCheckToken (route : String) : Bool :=
  shouldCheckTokenLoop NO_AUTH_NEEDED route

/-- The middleware `CheckAuthMiddleware(s)(next)` run on a request, `cfg` being
`s.Config()`. -/
def CheckAuthMiddleware (cfg : Config) (lib : Lib) (r : Request) : List Effect :=
  if !shouldCheckToken r.Path then
    [Effect.next]
  else
    let tokenString := TrimSpace (Header.Get r.Header "Authorization")
    if tokenString == "" then
      [Effect.httpError "Unauthorized" 401]
    else
      Effect.parseWithClaims tokenString cfg.JwtSecret ::
        match lib.ParseWithClaims tokenString cfg.JwtSecret with
        | .error _ => [Effect.httpError "Unauthorized" 401]
        | .ok _ => [Effect.next]

/-! ## Package `handlers` -/

/-- Decodes a request body. -/
def decode (lib : Lib) (body : String) : Except String SignUpLoginRequest :=
  match lib.jsonDecode body with
  | .error err => .error ("error decoding request: " ++ err)
  | .ok v => .ok v

/-- Responds with an error: writes the header, then the text of the error. -/
def respondError (code : Nat) (err : String) : List Effect :=
  [Effect.writeHeader code, Effect.write err]

/-- The claims literal of `LoginHandler`: the user id and, as expiry, the Unix time
of `time.Now().Add(time.Hour * 48)`. -/
def loginClaims (userId : String) (now : Int) : AppClaims :=
  { UserId := userId, ExpiresAt := Unix (now + Hour * 48) }

/-- The handler `LoginHandler(s)` run on a request, `cfg` being `s.Config()` and
`repo` the implementation behind package `repository`. -/
def LoginHandler (cfg : Config) (lib : Lib) (repo : Repository) (r : Request) : List Effect :=
  match decode lib r.Body with
  | .error err => respondError 400 err
  | .ok request =>
    match repo.GetUserByEmail request.Email with
    | (_, some err) => Effect.logPrintln err :: respondError 500 "internal server error"
    | (none, none) => respondError 401 "invalid credentials"
    | (some user, none) =>
      match lib.CompareHashAndPassword user.Password request.Password with
      | some _ => respondError 401 "invalid credentials"
      | none =>
        match lib.SignedString (loginClaims user.Id lib.Now) cfg.JwtSecret with
        | .error err => Effect.logPrintln err :: respondError 500 "internal server error"
        | .ok signedToken =>
          [Effect.setHeader "Content-Type" "application/json",
           Effect.encodeLoginResponse { Token := signedToken }]

/-- The handler `MeHandler(s)` run on a request. -/
def MeHandler (cfg : Config) (lib : Lib) (repo : Repository) (r : Request) : List Effect :=
  let tokenString := TrimSpace (Header.Get r.Header "Authorization")
  Effect.parseWithClaims tokenString cfg.JwtSecret ::
    match lib.ParseWithClaims tokenString cfg.JwtSecret with
    | .error _ => respondError 401 "invalid token"
    | .ok token =>
      match token.Claims with
      | none => respondError 401 "invalid token"
      | some claims =>
        if !token.Valid then
          respondError 401 "invalid token"
        else
          match repo.GetUserById claims.UserId with
          | (_, some err) => Effect.logPrintln err :: respondError 500 "internal server error"
          | (none, none) => respondError 401 "invalid token"
          | (some user, none) =>
            [Effect.setHeader "Content-Type" "application/json",
             Effect.encodeSignUpResponse { Id := user.Id, Email := user.Email }]

/-- The handler `SignUpHandler(s)` run on a request; it does not read `s`. The
identifier is `id.String()` of the value `ksuid.NewRandom()` returns, the stored
password is the output of `bcrypt.GenerateFromPassword`. -/
def SignUpHandler (lib : Lib) (repo : Repository) (r : Request) : List Effect :=
  match decode lib r.Body with
  | .error err => respondError 400 err
  | .ok req =>
    match lib.NewRandom with
    | .error err => respondError 500 err
    | .ok id =>
      match lib.GenerateFromPassword req.Password with
      | .error err => Effect.logPrintln err :: respondError 500 err
      | .ok hashedPassword =>
        let user : User := { Id := id, Email := req.Email, Password := hashedPassword }
        Effect.insertUser user ::
          match repo.InsertUser user with
          | some err => respondError 500 err
          | none =>
            [Effect.setHeader "Content-Type" "application/json",
             Effect.writeHeader 201,
             Effect.encodeSignUpResponse { Id := user.Id, Email := user.Email }]

/-! ## Package `server` -/

/-- The server struct `server.Broker`, by its configuration; its router, a fresh
`mux.NewRouter()`, holds no route before `Start` and is left out. -/
structure Broker where
  config : Config
deriving DecidableEq

/-- The method `Broker.Config`. -/
def Broker.Config (b : Broker) : Config := b.config

/-- Creates a new server: `.error msg` stands for the return `(nil, errors.New(msg))`
and `.ok broker` for `(broker, nil)`. -/
def NewServer (config : Config) : Except String Broker :=
  if config.Port == "" then
    .error "port is required"
  else if config.JwtSecret == "" then
    .error "jwt secret is required"
  else if config.DatabaseURL == "" then
    .error "database url is required"
  else
    .ok { config := config }

/-! ## Categories -/

/-- The library calls of the category handlers, as parameters: `ParseInt s` is
`strconv.ParseInt(s, 10, 64)`, `jsonDecode body` is the JSON decoder run on the body
of an update and `Encode category` is the error `json.NewEncoder(w).Encode` returns
for the response of `GetCategoryByIdHandler`. -/
structure CategoryLib where
  ParseInt : String → Except String Int
  jsonDecode : String → Except String UpdateCategoryRequest
  Encode : Category → GoError

/-- The interface `repository.Repository` restricted to the category methods the two
handlers below call; each lookup returns the Go pair (pointer, error). -/
structure CategoryRepository where
  GetCategoryById : Int → Option Category × GoError
  GetCategoryByName : String → Option Category × GoError
  UpdateCategory : Category → GoError

/-- An argument bound to a placeholder of an SQL statement. -/
inductive SqlValue where
  | int (n : Int)
  | text (s : String)
  | time (t : Int)
deriving DecidableEq

/-- A result set `*sql.Rows` over the categories table: the outcome of `rows.Scan`
for each row `rows.Next()` announces, and the value of `rows.Err()`. -/
structure CategoryRows where
  scans : List (Except String Category)
  Err : GoError

/-- The database handle as the category methods use it, with the reading of
`time.Now()` that `UpdateCategory` binds. -/
structure CategoryDB where
  QueryContext : String → List SqlValue → Except String CategoryRows
  ExecContext : String → List SqlValue → GoError
  Now : Int

/-- The `for rows.Next()` loop of `extractCategoryFromResult`. -/
def extractCategoryFromResultLoop :
    List (Except String Category) → Category → Except String Category
  | [], category => .ok category
  | .error err :: _, _ => .error ("error scanning category row at GetCategoryById: " ++ err)
  | .ok row :: rest, _ => extractCategoryFromResultLoop rest row

/-- Extracts a category from a result: `.error e` stands for the return `(nil, e)`
and `.ok category` for `(&category, nil)`, the only two shapes the function returns.
The variable `category` starts as the zero value `models.Category{}`. The deferred
`rows.Close()` only prints when closing fails and is left out. -/
def extractCategoryFromResult (rows : CategoryRows) : Except String Category :=
  match extractCategoryFromResultLoop rows.scans ⟨0, "", 0, 0⟩ with
  | .error err => .error err
  | .ok category =>
    match rows.Err with
    | some err => .error ("error iterating over rows: " ++ err)
    | none => .ok category

/-- The method `PostgresRepository.GetCategoryById`. -/
def PostgresRepository.GetCategoryById (db : CategoryDB) (id : Int) :
    Option Category × GoError :=
  match db.QueryContext "SELECT id, name, created_at, updated_at FROM categories WHERE id = $1"
      [SqlValue.int id] with
  | .error err => (none, some ("error getting category at GetUserByName: " ++ err))
  | .ok rows =>
    match extractCategoryFromResult rows with
    | .error err => (none, some err)
    | .ok category => (some category, none)

/-- The method `PostgresRepository.GetCategoryByName`. -/
def PostgresRepository.GetCategoryByName (db : CategoryDB) (name : String) :
    Option Category × GoError :=
  match db.QueryContext
      "SELECT id, name, created_at, updated_at FROM categories WHERE name = $1"
      [SqlValue.text name] with
  | .error err => (none, some ("error getting category at GetUserByName: " ++ err))
  | .ok rows =>
    match extractCategoryFromResult rows with
    | .error err => (none, some err)
    | .ok category => (some category, none)

/-- The method `PostgresRepository.UpdateCategory`. -/
def PostgresRepository.UpdateCategory (db : CategoryDB) (category : Category) : GoError :=
  match db.ExecContext "UPDATE categories SET name = $1, updated_at = $2 WHERE id = $3"
      [SqlValue.text category.Name, SqlValue.time db.Now, SqlValue.int category.Id] with
  | some err => some ("error updating category at UpdateCategory: " ++ err)
  | none => none

/-- The Postgres implementation of the category methods over a database handle. -/
def PostgresCategoryRepository (db : CategoryDB) : CategoryRepository where
  GetCategoryById := PostgresRepository.GetCategoryById db
  GetCategoryByName := PostgresRepository.GetCategoryByName db
  UpdateCategory := PostgresRepository.UpdateCategory db

/-- The lookup `params[key]` in the map `mux.Vars(r)`: the empty string when the key
is absent. -/
def param (vars : List (String × String)) (key : String) : String :=
  (vars.lookup key).getD ""

/-- The helper `decode` run on the body of a category update. -/
def decodeUpdateCategory (lib : CategoryLib) (body : String) :
    Except String UpdateCategoryRequest :=
  match lib.jsonDecode body with
  | .error err => .error ("error decoding request: " ++ err)
  | .ok v => .ok v

/-- The handler `GetCategoryByIdHandler(s)` run on a request whose route variables
`mux.Vars(r)` are `vars`. -/
def GetCategoryByIdHandler (lib : CategoryLib) (repo : CategoryRepository)
    (vars : List (String × String)) : List Effect :=
  match lib.ParseInt (param vars "id") with
  | .error _ => respondError 400 "You must provide a valid id"
  | .ok id =>
    match repo.GetCategoryById id with
    | (_, some err) => Effect.logPrintln err :: respondError 500 "error getting category"
    | (none, none) => respondError 404 "category not found"
    | (some category, none) =>
      Effect.writeHeader 200 :: Effect.setHeader "Content-Type" "application/json" ::
        Effect.encodeGetCategoryResponse category ::
          match lib.Encode category with
          | some err => Effect.logPrintln err :: respondError 500 "error encoding response"
          | none => []

/-- How the run of a handler ends: it returns after its effects, or it stops on a
runtime panic (a nil pointer dereference) after them. -/
inductive Run where
  | returned (effects : List Effect)
  | panicked (effects : List Effect)
deriving DecidableEq

/-- The handler `UpdateCategoryHandler(s)` run on a request whose route variables are
`vars`. The error of `repository.GetCategoryByName` is discarded (`cat, _ :=`) and
`cat.Name` is read next: on a nil `cat` the run panics. -/
def UpdateCategoryHandler (lib : CategoryLib) (repo : CategoryRepository)
    (vars : List (String × String)) (r : Request) : Run :=
  match lib.ParseInt (param vars "id") with
  | .error _ => Run.returned (respondError 400 "You must provide a valid id")
  | .ok id =>
    match decodeUpdateCategory lib r.Body with
    | .error err => Run.returned (respondError 400 ("error decoding request: " ++ err))
    | .ok req =>
      match repo.GetCategoryById id with
      | (_, some err) =>
        Run.returned (Effect.logPrintln err :: respondError 500 "error getting category")
      | (none, none) => Run.returned (respondError 404 "category not found")
      | (some category, none) =>
        if category.Name == req.Name then
          Run.returned (respondError 400 "the new name must be different from the old one")
        else
          match repo.GetCategoryByName req.Name with
          | (none, _) => Run.panicked []
          | (some cat, _) =>
            if cat.Name == req.Name then
              Run.returned (respondError 400 "the new name is already in use")
            else
              let updated : Category := { category with Name := req.Name }
              match repo.UpdateCategory updated with
              | some err =>
                Run.returned (Effect.updateCategory updated :: Effect.logPrintln err ::
                  respondError 500 "error updating category")
              | none =>
                Run.returned
                  [Effect.updateCategory updated, Effect.writeHeader 200,
                   Effect.setHeader "Content-Type" "application/json",
                   Effect.encodeUpdateCategoryResponse
                     { ID := updated.Id, Name := updated.Name }]

/-! ## Reading a list of effects -/

/-- The token strings handed to the parser, in order. -/
def parserInputs : List Effect → List String
  | [] => []
  | Effect.parseWithClaims tokenString _ :: rest => tokenString :: parserInputs rest
  | _ :: rest => parserInputs rest

/-- How many times the next handler was called. -/
def nextCalls : List Effect → Nat
  | [] => 0
  | Effect.next :: rest => nextCalls rest + 1
  | _ :: rest => nextCalls rest

/-- Whether an effect writes to the response (status line, header or body). -/
def writesResponse : Effect → Bool
  | Effect.httpError _ _ => true
  | Effect.writeHeader _ => true
  | Effect.write _ => true
  | Effect.setHeader _ _ => true
  | Effect.encodeSignUpResponse _ => true
  | Effect.encodeLoginResponse _ => true
  | Effect.encodeGetCategoryResponse _ => true
  | Effect.encodeUpdateCategoryResponse _ => true
  | _ => false

/-- The status code the client receives, following `net/http`: the code of the first
`WriteHeader` or `http.Error`, or 200 when the body is written first; `none` when
nothing is written. -/
def statusOf : List Effect → Option Nat
  | [] => none
  | Effect.httpError _ code :: _ => some code
  | Effect.writeHeader code :: _ => some code
  | Effect.write _ :: _ => some 200
  | Effect.encodeSignUpResponse _ :: _ => some 200
  | Effect.encodeLoginResponse _ :: _ => some 200
  | Effect.encodeGetCategoryResponse _ :: _ => some 200
  | Effect.encodeUpdateCategoryResponse _ :: _ => some 200
  | _ :: rest => statusOf rest

/-- The tokens answered to the client, in order. -/
def issuedTokens : List Effect → List String
  | [] => []
  | Effect.encodeLoginResponse resp :: rest => resp.Token :: issuedTokens rest
  | _ :: rest => issuedTokens rest

/-- The users handed to `repository.InsertUser`, in order. -/
def insertedUsers : List Effect → List User
  | [] => []
  | Effect.insertUser user :: rest => user :: insertedUsers rest
  | _ :: rest => insertedUsers rest

/-! ## Token validation -/

/-- Modelled from the spec: the wire format of a token belongs to the JWT package,
which is not among the sources. `claimsOf tokenString` is the parse of the compact
form together with the check of the claim shape (`none` when malformed) and
`signatureOk tokenString key` the verification of the signature against the key. -/
structure TokenCodec where
  claimsOf : String → Option AppClaims
  signatureOk : String → String → Bool

/-- The validation behind `jwt.ParseWithClaims` for claims embedding
`jwt.StandardClaims`, the spec's Token Service operation `validate` (4.2), as the
imported package `github.com/golang-jwt/jwt` (version 3, not among the sources)
performs it: the token is parsed, the claims are validated and the signature is
verified against the key. The only registered claim `LoginHandler` sets is
`ExpiresAt`; the package does not check an `ExpiresAt` of 0 and otherwise accepts
the token while `now <= exp`, both in Unix seconds, so the expiry second itself is
still accepted (the spec words the check as `expiresAt > now`). The handlers
discard the kind of the error. -/
def validate (codec : TokenCodec) (now : Int) (tokenString key : String) :
    Except ValidationError Token :=
  match codec.claimsOf tokenString with
  | none => .error ValidationError.malformed
  | some claims =>
    if !codec.signatureOk tokenString key then
      .error ValidationError.signatureInvalid
    else if claims.ExpiresAt == 0 || Unix now ≤ claims.ExpiresAt then
      .ok { Claims := some claims, Valid := true }
    else
      .error ValidationError.expired

/-- The library calls with token parsing done by `validate` at the instant `lib.Now`. -/
def withValidate (codec : TokenCodec) (lib : Lib) : Lib :=
  { lib with ParseWithClaims := validate codec lib.Now }

/-! ## Stores that differ only in password hashes -/

/-- A user with the password hash blanked. -/
def erasePassword (u : User) : User := { u with Password := "" }

/-- A result set with the password hash of every scanned row blanked. -/
def Rows.erasePasswords (rows : Rows) : Rows :=
  { scans := rows.scans.map (Except.map erasePassword), Err := rows.Err }

/-- What a query answers, password hashes blanked. -/
def eraseQueryResult : Except String Rows → Except String Rows
  | .error err => .error err
  | .ok rows => .ok rows.erasePasswords

/-- Two databases answer every query alike up to the password hashes they hold. -/
def SameUpToPasswords (db1 db2 : DB) : Prop :=
  ∀ query arg, eraseQueryResult (db1.QueryContext query arg) =
    eraseQueryResult (db2.QueryContext query arg)

/-- What a repository method answers, the password hash of the user blanked. -/
def eraseLookup : Option User × GoError → Option User × GoError
  | (user, err) => (user.map erasePassword, err)

/-! ## Sample values -/

/-- A configuration with the three fields filled. -/
def sampleConfig : Config :=
  { Port := ":5050", JwtSecret := "s3cret", DatabaseURL := "postgres://localhost/db" }

/-- Library calls of a toy world: the token "tok-1" parses for the key "s3cret" into
valid claims of the user "u1" and every other token is malformed; the hash of a
password is "hash:" followed by the password. -/
def sampleLib : Lib where
  ParseWithClaims := fun tokenString key =>
    if tokenString == "tok-1" && key == "s3cret" then
      .ok { Claims := some { UserId := "u1", ExpiresAt := 172800 }, Valid := true }
    else .error ValidationError.malformed
  SignedString := fun claims _ => .ok ("tok-" ++ claims.UserId)
  CompareHashAndPassword := fun hash password =>
    if hash == "hash:" ++ password then none else some "hash and password differ"
  GenerateFromPassword := fun password => .ok ("hash:" ++ password)
  NewRandom := .ok "u1"
  jsonDecode := fun body =>
    if body == "ann" then .ok { Email := "ann@x.com", Password := "pw" }
    else if body == "bob" then .ok { Email := "bob@x.com", Password := "pw" }
    else .error "unexpected end of JSON input"
  Now := 0

/-- A request to a protected path carrying the header value `auth`. -/
def requestWith (path auth : String) : Request :=
  { Path := path, Header := [("Authorization", [auth])], Body := "" }

/-- A user store holding the single user "u1". -/
def sampleRepo : Repository where
  InsertUser := fun _ => none
  GetUserById := fun id =>
    if id == "u1" then (some { Id := "u1", Email := "ann@x.com", Password := "" }, none)
    else (none, none)
  GetUserByEmail := fun email =>
    if email == "ann@x.com" then
      (some { Id := "u1", Email := "ann@x.com", Password := "hash:pw" }, none)
    else (none, none)

/-- A users table with the single row of "u1", answering nothing to other arguments. -/
def sampleDB : DB where
  QueryContext := fun _ arg =>
    if arg == "u1" || arg == "ann@x.com" then
      .ok { scans := [.ok { Id := "u1", Email := "ann@x.com", Password := "hash:pw" }],
            Err := none }
    else .ok { scans := [], Err := none }
  ExecContext := fun _ _ => none

/-- The table of `sampleDB` with another password hash in the row of "u1". -/
def sampleDB2 : DB where
  QueryContext := fun _ arg =>
    if arg == "u1" || arg == "ann@x.com" then
      .ok { scans := [.ok { Id := "u1", Email := "ann@x.com", Password := "hash:other" }],
            Err := none }
    else .ok { scans := [], Err := none }
  ExecContext := fun _ _ => none

/-- A user store whose lookups fail. -/
def failingRepo : Repository where
  InsertUser := fun _ => some "connection refused"
  GetUserById := fun _ => (none, some "connection refused")
  GetUserByEmail := fun _ => (none, some "connection refused")

/-- A token codec of a toy world: the token "tok-" ++ id carries the claims that
`LoginHandler` issues to the user `id` at instant 0, and every signature verifies
against the key "s3cret" only. -/
def sampleCodec : TokenCodec where
  claimsOf := fun tokenString =>
    if tokenString == "tok-u1" then some { UserId := "u1", ExpiresAt := 172800 } else none
  signatureOk := fun _ key => key == "s3cret"

/-- A users table without rows. -/
def emptyDB : DB where
  QueryContext := fun _ _ => .ok { scans := [], Err := none }
  ExecContext := fun _ _ => none

/-- A users table that refuses every insert with the given driver error. -/
def refusingDB (err : String) : DB where
  QueryContext := fun _ _ => .ok { scans := [], Err := none }
  ExecContext := fun _ _ => some err

/-- Library calls of the category handlers in a toy world: the identifiers "7" and
"999" parse, the body "rename" asks for the name "books", encoding succeeds. -/
def sampleCategoryLib : CategoryLib where
  ParseInt := fun s =>
    if s == "7" then .ok 7 else if s == "999" then .ok 999
    else .error "strconv.ParseInt: parsing: invalid syntax"
  jsonDecode := fun body =>
    if body == "rename" then .ok { ID := 7, Name := "books" }
    else .error "unexpected end of JSON input"
  Encode := fun _ => none

/-- A categories table without rows. -/
def emptyCategoryDB : CategoryDB where
  QueryContext := fun _ _ => .ok { scans := [], Err := none }
  ExecContext := fun _ _ => none
  Now := 0

/-- A categories table holding the category 7, "music", whose lookups by name fail
in the driver. -/
def brokenNameCategoryDB : CategoryDB where
  QueryContext := fun _ args =>
    if args == [SqlValue.int 7] then
      .ok { scans := [.ok { Id := 7, Name := "music", CreatedAt := 0, UpdatedAt := 0 }],
            Err := none }
    else .error "driver: bad connection"
  ExecContext := fun _ _ => none
  Now := 0

/-! ## Theorems -/

theorem shouldCheckTokenLoop_eq_false (paths : List String) (route : String) :
    shouldCheckTokenLoop paths route = false ↔ route ∈ paths := by
  induction paths with
  | nil => simp [shouldCheckTokenLoop]
  | cons p ps ih =>
    by_cases h : p = route
    · simp [shouldCheckTokenLoop, h]
    · have h2 : ¬ route = p := fun e => h e.symm
      simp [shouldCheckTokenLoop, h, h2, ih]

theorem shouldCheckToken_eq_false_iff (route : String) :
    shouldCheckToken route = false ↔ route ∈ NO_AUTH_NEEDED :=
  shouldCheckTokenLoop_eq_false NO_AUTH_NEEDED route

theorem shouldCheckToken_eq_true_iff (route : String) :
    shouldCheckToken route = true ↔ route ∉ NO_AUTH_NEEDED := by
  rw [← shouldCheckToken_eq_false_iff]
  cases shouldCheckToken route <;> simp

/-- C1: `shouldCheckToken r` is `false` exactly when `r` is one of "/", "/signup",
"/login"; for every other string, the empty one included, it is `true`. -/
theorem C1_shouldCheckToken_false_iff (r : String) :
    (shouldCheckToken r = false ↔ (r = "/" ∨ r = "/signup" ∨ r = "/login")) ∧
    ((¬ (r = "/" ∨ r = "/signup" ∨ r = "/login")) → shouldCheckToken r = true) ∧
    shouldCheckToken "" = true := by
  have key : shouldCheckToken r = false ↔ (r = "/" ∨ r = "/signup" ∨ r = "/login") := by
    rw [shouldCheckToken_eq_false_iff]
    simp [NO_AUTH_NEEDED]
  refine ⟨key, ?_, ?_⟩
  · intro h
    cases hb : shouldCheckToken r with
    | true => rfl
    | false => exact absurd (key.mp hb) h
  · decide

/-- On an allowlisted path the middleware only calls the next handler. -/
theorem CheckAuthMiddleware_exempt (cfg : Config) (lib : Lib) (r : Request)
    (hpath : r.Path ∈ NO_AUTH_NEEDED) : CheckAuthMiddleware cfg lib r = [Effect.next] := by
  have h := (shouldCheckToken_eq_false_iff r.Path).mpr hpath
  simp [CheckAuthMiddleware, h]

/-- C2: on an allowlisted path `CheckAuthMiddleware` calls the next handler exactly
once and writes nothing to the response, and this list of effects is the same for
any other request to that path (whatever its headers), any configured secret and any
behaviour of the token parser. -/
theorem C2_exempt_path_always_allowed (cfg cfg2 : Config) (lib lib2 : Lib) (r r2 : Request)
    (hpath : r.Path ∈ NO_AUTH_NEEDED) (hsame : r2.Path = r.Path) :
    CheckAuthMiddleware cfg lib r = [Effect.next] ∧
    nextCalls (CheckAuthMiddleware cfg lib r) = 1 ∧
    (∀ e ∈ CheckAuthMiddleware cfg lib r, writesResponse e = false) ∧
    parserInputs (CheckAuthMiddleware cfg lib r) = [] ∧
    CheckAuthMiddleware cfg2 lib2 r2 = CheckAuthMiddleware cfg lib r := by
  have h1 := CheckAuthMiddleware_exempt cfg lib r hpath
  have h2 := CheckAuthMiddleware_exempt cfg2 lib2 r2 (hsame ▸ hpath)
  rw [h1, h2]
  simp [nextCalls, writesResponse, parserInputs]

/-- The allowlisted request "/login" with an expired-looking token and another
secret is let through like the bare request. -/
theorem C2_exempt_path_always_allowed_witness :
    CheckAuthMiddleware sampleConfig sampleLib (requestWith "/login" "") = [Effect.next] ∧
    nextCalls (CheckAuthMiddleware sampleConfig sampleLib (requestWith "/login" "")) = 1 ∧
    (∀ e ∈ CheckAuthMiddleware sampleConfig sampleLib (requestWith "/login" ""),
      writesResponse e = false) ∧
    parserInputs (CheckAuthMiddleware sampleConfig sampleLib (requestWith "/login" "")) = [] ∧
    CheckAuthMiddleware { sampleConfig with JwtSecret := "other" } sampleLib
        (requestWith "/login" "garbage") =
      CheckAuthMiddleware sampleConfig sampleLib (requestWith "/login" "") :=
  C2_exempt_path_always_allowed sampleConfig { sampleConfig with JwtSecret := "other" }
    sampleLib sampleLib (requestWith "/login" "") (requestWith "/login" "garbage")
    (by decide) rfl

/-! ### White space trimming -/

theorem TrimSpace_eq_empty_iff (s : String) :
    TrimSpace s = "" ↔ ∀ c ∈ s.data, isSpace c = true := by
  unfold TrimSpace
  constructor
  · intro h
    have h1 : ((s.data.dropWhile isSpace).reverse.dropWhile isSpace).reverse = [] :=
      congrArg String.data h
    have h2 : (s.data.dropWhile isSpace).reverse.dropWhile isSpace = [] := by
      simpa using h1
    rw [List.dropWhile_eq_nil_iff] at h2
    intro c hc
    by_contra hcs
    have hne : s.data.dropWhile isSpace ≠ [] := by
      intro hnil
      rw [List.dropWhile_eq_nil_iff] at hnil
      exact hcs (hnil c hc)
    have hhead := List.head_dropWhile_not isSpace s.data hne
    have hmem : (s.data.dropWhile isSpace).head hne ∈ (s.data.dropWhile isSpace).reverse :=
      List.mem_reverse.mpr (List.head_mem hne)
    have := h2 _ hmem
    simp [this] at hhead
  · intro h
    have h1 : s.data.dropWhile isSpace = [] := List.dropWhile_eq_nil_iff.mpr h
    rw [h1]
    rfl

/-- C3: on a path outside the allowlist, when the Authorization header is absent,
empty or made of white space only, `CheckAuthMiddleware` answers with
`http.Error(w, "Unauthorized", 401)` and does nothing else: the next handler is not
called and the token parser is not invoked. -/
theorem C3_missing_token_rejected (cfg : Config) (lib : Lib) (r : Request)
    (hpath : r.Path ∉ NO_AUTH_NEEDED)
    (hauth : r.Header.lookup "Authorization" = none ∨
      Header.Get r.Header "Authorization" = "" ∨
      ∀ c ∈ (Header.Get r.Header "Authorization").data, isSpace c = true) :
    CheckAuthMiddleware cfg lib r = [Effect.httpError "Unauthorized" 401] ∧
    statusOf (CheckAuthMiddleware cfg lib r) = some 401 ∧
    nextCalls (CheckAuthMiddleware cfg lib r) = 0 ∧
    parserInputs (CheckAuthMiddleware cfg lib r) = [] := by
  have hcheck := (shouldCheckToken_eq_true_iff r.Path).mpr hpath
  have hws : ∀ c ∈ (Header.Get r.Header "Authorization").data, isSpace c = true := by
    rcases hauth with h | h | h
    · simp [Header.Get, h]
    · simp [h]
    · exact h
  have htrim := (TrimSpace_eq_empty_iff _).mpr hws
  have hrun : CheckAuthMiddleware cfg lib r = [Effect.httpError "Unauthorized" 401] := by
    simp [CheckAuthMiddleware, hcheck, htrim]
  rw [hrun]
  simp [statusOf, nextCalls, parserInputs]

/-- A request to "/me" whose Authorization header holds a tab, a space and a
no-break space is rejected without parsing. -/
theorem C3_missing_token_rejected_witness :
    CheckAuthMiddleware sampleConfig sampleLib (requestWith "/me" "\t  ") =
      [Effect.httpError "Unauthorized" 401] ∧
    statusOf (CheckAuthMiddleware sampleConfig sampleLib (requestWith "/me" "\t  ")) =
      some 401 ∧
    nextCalls (CheckAuthMiddleware sampleConfig sampleLib (requestWith "/me" "\t  ")) = 0 ∧
    parserInputs (CheckAuthMiddleware sampleConfig sampleLib (requestWith "/me" "\t  ")) =
      [] :=
  C3_missing_token_rejected sampleConfig sampleLib (requestWith "/me" "\t  ")
    (by decide) (Or.inr (Or.inr (by decide)))

/-- C4: on a path outside the allowlist with a non-empty trimmed Authorization
value, `CheckAuthMiddleware` calls the next handler exactly when the parser returns
no error for that value; when the parser fails, whatever the kind of failure, the
effects are the parser call followed by `http.Error(w, "Unauthorized", 401)`, and
the next handler is not called. -/
theorem C4_next_iff_token_valid (cfg : Config) (lib : Lib) (r : Request)
    (hpath : r.Path ∉ NO_AUTH_NEEDED)
    (hne : TrimSpace (Header.Get r.Header "Authorization") ≠ "") :
    (Effect.next ∈ CheckAuthMiddleware cfg lib r ↔
      ∃ token, lib.ParseWithClaims (TrimSpace (Header.Get r.Header "Authorization"))
        cfg.JwtSecret = .ok token) ∧
    (∀ token, lib.ParseWithClaims (TrimSpace (Header.Get r.Header "Authorization"))
        cfg.JwtSecret = .ok token →
      CheckAuthMiddleware cfg lib r =
        [Effect.parseWithClaims (TrimSpace (Header.Get r.Header "Authorization")) cfg.JwtSecret,
         Effect.next]) ∧
    (∀ kind, lib.ParseWithClaims (TrimSpace (Header.Get r.Header "Authorization"))
        cfg.JwtSecret = .error kind →
      CheckAuthMiddleware cfg lib r =
        [Effect.parseWithClaims (TrimSpace (Header.Get r.Header "Authorization")) cfg.JwtSecret,
         Effect.httpError "Unauthorized" 401] ∧
      statusOf (CheckAuthMiddleware cfg lib r) = some 401 ∧
      nextCalls (CheckAuthMiddleware cfg lib r) = 0) := by
  have hcheck := (shouldCheckToken_eq_true_iff r.Path).mpr hpath
  cases hp : lib.ParseWithClaims (TrimSpace (Header.Get r.Header "Authorization"))
      cfg.JwtSecret with
  | error kind =>
    have hrun : CheckAuthMiddleware cfg lib r =
        [Effect.parseWithClaims (TrimSpace (Header.Get r.Header "Authorization")) cfg.JwtSecret,
         Effect.httpError "Unauthorized" 401] := by
      simp [CheckAuthMiddleware, hcheck, hne, hp]
    rw [hrun]
    simp [statusOf, nextCalls]
  | ok token =>
    have hrun : CheckAuthMiddleware cfg lib r =
        [Effect.parseWithClaims (TrimSpace (Header.Get r.Header "Authorization")) cfg.JwtSecret,
         Effect.next] := by
      simp [CheckAuthMiddleware, hcheck, hne, hp]
    rw [hrun]
    simp

/-- The request to "/me" with the header " tok-1 " reaches the next handler, the
parser accepting "tok-1". -/
theorem C4_next_iff_token_valid_witness :
    CheckAuthMiddleware sampleConfig sampleLib (requestWith "/me" " tok-1 ") =
      [Effect.parseWithClaims "tok-1" "s3cret", Effect.next] :=
  (C4_next_iff_token_valid sampleConfig sampleLib (requestWith "/me" " tok-1 ")
    (by decide) (by decide)).2.1
    { Claims := some { UserId := "u1", ExpiresAt := 172800 }, Valid := true } rfl

theorem dropWhile_isSpace_of_head (a : Char) (l : List Char) (ha : isSpace a = false) :
    (a :: l).dropWhile isSpace = a :: l := by
  simp [List.dropWhile, ha]

/-- A string that trimming leaves alone does not start with white space. -/
theorem head_not_space_of_trim_fixed (t : String) (htrim : TrimSpace t = t)
    (a : Char) (l : List Char) (hd : t.data = a :: l) : isSpace a = false := by
  by_contra hsp
  have hsp2 : isSpace a = true := by simpa using hsp
  have hlen1 : (t.data.dropWhile isSpace).length ≤ l.length := by
    rw [hd, List.dropWhile_cons_of_pos hsp2]
    exact (List.dropWhile_sublist isSpace).length_le
  have hlen2 : ((t.data.dropWhile isSpace).reverse.dropWhile isSpace).reverse.length ≤
      (t.data.dropWhile isSpace).length := by
    rw [List.length_reverse]
    exact le_trans (List.dropWhile_sublist isSpace).length_le (by simp)
  have hdata : ((t.data.dropWhile isSpace).reverse.dropWhile isSpace).reverse = t.data :=
    congrArg String.data htrim
  rw [hdata] at hlen2
  have hlen3 : t.data.length = l.length + 1 := by rw [hd]; rfl
  omega

/-- A string that trimming leaves alone does not end with white space. -/
theorem last_not_space_of_trim_fixed (t : String) (htrim : TrimSpace t = t)
    (b : Char) (l : List Char) (hd : t.data.reverse = b :: l) : isSpace b = false := by
  have hdata : ((t.data.dropWhile isSpace).reverse.dropWhile isSpace).reverse = t.data :=
    congrArg String.data htrim
  have hrev : (t.data.dropWhile isSpace).reverse.dropWhile isSpace = b :: l := by
    have h := congrArg List.reverse hdata
    rw [List.reverse_reverse, hd] at h
    exact h
  have hne : (t.data.dropWhile isSpace).reverse.dropWhile isSpace ≠ [] := by
    rw [hrev]; exact List.cons_ne_nil _ _
  have hhead := List.head_dropWhile_not isSpace _ hne
  simpa [hrev] using hhead

/-- Trimming keeps a "Bearer " in front of a token that is not empty and does not
end with white space. -/
theorem TrimSpace_bearer (t : String) (hne : t ≠ "") (htrim : TrimSpace t = t) :
    TrimSpace ("Bearer " ++ t) = "Bearer " ++ t := by
  have hdne : t.data.reverse ≠ [] := by
    intro h
    apply hne
    have : t.data = [] := by simpa using h
    exact String.ext this
  obtain ⟨b, l, hbl⟩ := List.exists_cons_of_ne_nil hdne
  have hb := last_not_space_of_trim_fixed t htrim b l hbl
  apply String.ext
  show (((("Bearer " ++ t).data).dropWhile isSpace).reverse.dropWhile isSpace).reverse =
    ("Bearer " ++ t).data
  have hB : ("Bearer " ++ t).data = 'B' :: ("earer ".data ++ t.data) := by
    simp [String.data_append]
  rw [hB, dropWhile_isSpace_of_head _ _ (by decide)]
  have hr : ('B' :: ("earer ".data ++ t.data)).reverse =
      b :: (l ++ ('B' :: "earer ".data).reverse) := by
    simp [List.reverse_append, hbl]
  rw [hr, dropWhile_isSpace_of_head _ _ hb, ← hr, List.reverse_reverse]

/-- Trimming removes the two spaces put on each side of a token that is not empty
and neither starts nor ends with white space. -/
theorem TrimSpace_padded (t : String) (hne : t ≠ "") (htrim : TrimSpace t = t) :
    TrimSpace ("  " ++ t ++ "  ") = t := by
  have hdne : t.data ≠ [] := fun h => hne (String.ext h)
  have hrne : t.data.reverse ≠ [] := by simpa using hdne
  obtain ⟨a, l, hal⟩ := List.exists_cons_of_ne_nil hdne
  obtain ⟨b, k, hbk⟩ := List.exists_cons_of_ne_nil hrne
  have ha := head_not_space_of_trim_fixed t htrim a l hal
  have hb := last_not_space_of_trim_fixed t htrim b k hbk
  apply String.ext
  show (((("  " ++ t ++ "  ").data).dropWhile isSpace).reverse.dropWhile isSpace).reverse =
    t.data
  have hP : ("  " ++ t ++ "  ").data = ' ' :: ' ' :: (a :: (l ++ [' ', ' '])) := by
    simp [String.data_append, hal]
  have h1 : (' ' :: ' ' :: (a :: (l ++ [' ', ' ']))).dropWhile isSpace =
      a :: (l ++ [' ', ' ']) := by
    rw [List.dropWhile_cons_of_pos (by decide), List.dropWhile_cons_of_pos (by decide),
      dropWhile_isSpace_of_head _ _ ha]
  have h2 : (a :: (l ++ [' ', ' '])).reverse = ' ' :: ' ' :: (b :: k) := by
    rw [← hbk, hal]; simp
  rw [hP, h1, h2, List.dropWhile_cons_of_pos (by decide), List.dropWhile_cons_of_pos (by decide),
    dropWhile_isSpace_of_head _ _ hb, ← hbk, List.reverse_reverse]

theorem parserInputs_respondError (code : Nat) (err : String) :
    parserInputs (respondError code err) = [] := rfl

/-- The only parser call of `MeHandler` is the first effect, on the trimmed header. -/
theorem parserInputs_MeHandler (cfg : Config) (lib : Lib) (repo : Repository) (r : Request) :
    parserInputs (MeHandler cfg lib repo r) =
      [TrimSpace (Header.Get r.Header "Authorization")] := by
  unfold MeHandler
  simp only [parserInputs]
  cases lib.ParseWithClaims (TrimSpace (Header.Get r.Header "Authorization")) cfg.JwtSecret with
  | error kind => simp [parserInputs_respondError]
  | ok token =>
    cases hc : token.Claims with
    | none => simp [hc, parserInputs_respondError]
    | some claims =>
      cases hv : token.Valid with
      | false => simp [hc, hv, parserInputs_respondError]
      | true =>
        rcases hu : repo.GetUserById claims.UserId with ⟨user, err⟩
        cases err with
        | some e => simp [hc, hv, hu, parserInputs, parserInputs_respondError]
        | none =>
          cases user with
          | none => simp [hc, hv, hu, parserInputs_respondError]
          | some u => simp [hc, hv, hu, parserInputs]

/-- Past the allowlist and the emptiness test, the only parser call of the middleware
is on the trimmed header. -/
theorem parserInputs_CheckAuthMiddleware (cfg : Config) (lib : Lib) (r : Request)
    (hpath : r.Path ∉ NO_AUTH_NEEDED)
    (hne : TrimSpace (Header.Get r.Header "Authorization") ≠ "") :
    parserInputs (CheckAuthMiddleware cfg lib r) =
      [TrimSpace (Header.Get r.Header "Authorization")] := by
  have hcheck := (shouldCheckToken_eq_true_iff r.Path).mpr hpath
  cases hp : lib.ParseWithClaims (TrimSpace (Header.Get r.Header "Authorization"))
      cfg.JwtSecret <;>
    simp [CheckAuthMiddleware, hcheck, hne, hp, parserInputs]

/-- C5, as stated, fails on a token that ends with white space: for the header
"Bearer " ++ "tok-1 " the middleware and `MeHandler` hand "Bearer tok-1" to the
parser, which is not "Bearer " ++ "tok-1 "; the same happens when the token ends
with a no-break space (U+00A0). -/
theorem C5_counterexample :
    parserInputs (CheckAuthMiddleware sampleConfig sampleLib
      (requestWith "/me" ("Bearer " ++ "tok-1 "))) = ["Bearer tok-1"] ∧
    parserInputs (MeHandler sampleConfig sampleLib sampleRepo
      (requestWith "/me" ("Bearer " ++ "tok-1 "))) = ["Bearer tok-1"] ∧
    ¬ (parserInputs (CheckAuthMiddleware sampleConfig sampleLib
      (requestWith "/me" ("Bearer " ++ "tok-1 "))) = ["Bearer " ++ "tok-1 "]) ∧
    ¬ (parserInputs (MeHandler sampleConfig sampleLib sampleRepo
      (requestWith "/me" ("Bearer " ++ "tok-1 "))) = ["Bearer " ++ "tok-1 "]) ∧
    ¬ (parserInputs (CheckAuthMiddleware sampleConfig sampleLib
      (requestWith "/me" ("Bearer " ++ "tok-1\u00a0"))) = ["Bearer " ++ "tok-1\u00a0"]) := by
  decide

/-- C5, amended: the token string `MeHandler` hands to the parser, and the one
`CheckAuthMiddleware` hands to it on a path outside the allowlist when the trimmed
value is not empty, is the Authorization header value with leading and trailing
white space removed and nothing else changed. No "Bearer " is stripped: for every
token `t` that is not empty and neither starts nor ends with white space, the header
"Bearer " ++ t reaches the parser as "Bearer " ++ t and the header
"  " ++ t ++ "  " reaches it as `t`. -/
theorem C5_parser_receives_trimmed_header (cfg : Config) (lib : Lib) (repo : Repository)
    (r : Request) (t : String) (hpath : r.Path ∉ NO_AUTH_NEEDED) (hne : t ≠ "")
    (htrim : TrimSpace t = t) :
    parserInputs (MeHandler cfg lib repo r) =
      [TrimSpace (Header.Get r.Header "Authorization")] ∧
    (TrimSpace (Header.Get r.Header "Authorization") ≠ "" →
      parserInputs (CheckAuthMiddleware cfg lib r) =
        [TrimSpace (Header.Get r.Header "Authorization")]) ∧
    (Header.Get r.Header "Authorization" = "Bearer " ++ t →
      parserInputs (CheckAuthMiddleware cfg lib r) = ["Bearer " ++ t] ∧
      parserInputs (MeHandler cfg lib repo r) = ["Bearer " ++ t]) ∧
    (Header.Get r.Header "Authorization" = "  " ++ t ++ "  " →
      parserInputs (CheckAuthMiddleware cfg lib r) = [t] ∧
      parserInputs (MeHandler cfg lib repo r) = [t]) := by
  refine ⟨parserInputs_MeHandler cfg lib repo r,
    parserInputs_CheckAuthMiddleware cfg lib r hpath, ?_, ?_⟩
  · intro hh
    have hb := TrimSpace_bearer t hne htrim
    have hne2 : TrimSpace (Header.Get r.Header "Authorization") ≠ "" := by
      rw [hh, hb]
      intro h
      have := congrArg String.length h
      simp at this
      exact absurd this.1 (by decide)
    rw [parserInputs_MeHandler, parserInputs_CheckAuthMiddleware cfg lib r hpath hne2, hh, hb]
    exact ⟨rfl, rfl⟩
  · intro hh
    have hp := TrimSpace_padded t hne htrim
    have hne2 : TrimSpace (Header.Get r.Header "Authorization") ≠ "" := by
      rw [hh, hp]; exact hne
    rw [parserInputs_MeHandler, parserInputs_CheckAuthMiddleware cfg lib r hpath hne2, hh, hp]
    exact ⟨rfl, rfl⟩

/-- The header "Bearer tok-1" on "/me" reaches the parser unchanged. -/
theorem C5_parser_receives_trimmed_header_witness :
    parserInputs (CheckAuthMiddleware sampleConfig sampleLib
        (requestWith "/me" ("Bearer " ++ "tok-1"))) = ["Bearer " ++ "tok-1"] ∧
    parserInputs (MeHandler sampleConfig sampleLib sampleRepo
        (requestWith "/me" ("Bearer " ++ "tok-1"))) = ["Bearer " ++ "tok-1"] :=
  (C5_parser_receives_trimmed_header sampleConfig sampleLib sampleRepo
    (requestWith "/me" ("Bearer " ++ "tok-1")) "tok-1" (by decide) (by decide)
    (by decide)).2.2.1 (by decide)

/-! ### Expiry -/

/-- Adding 48 hours to an instant adds 172800 to its Unix second. -/
theorem Unix_add_48_hours (t : Int) : Unix (t + Hour * 48) = Unix t + 172800 := by
  unfold Unix Hour
  have h : (3600 * 1000000000 * 48 : Int) = 172800 * 1000000000 := by norm_num
  rw [h, Int.add_mul_ediv_right _ _ (by norm_num)]

theorem loginClaims_ExpiresAt (userId : String) (t : Int) :
    (loginClaims userId t).ExpiresAt = Unix t + 172800 :=
  Unix_add_48_hours t

/-- C6, as stated, fails whatever the parser does. `LoginHandler` keeps the whole
Unix second of the expiry, so the claims issued at 1700000000 s and half a second
later are equal and the two tokens are one and the same string; at
1700172800.2 s the claim asks for its rejection as the first token (48 hours have
passed) and for its acceptance as the second (they have not). No signer and no
parser, run behind the middleware, accept exactly before `T0 + 48 h` for every
issuing instant `T0`. -/
theorem C6_counterexample :
    loginClaims "u1" 1700000000000000000 = loginClaims "u1" 1700000000500000000 ∧
    ¬ ((1700172800200000000 : Int) < 1700000000000000000 + Hour * 48) ∧
    (1700172800200000000 : Int) < 1700000000500000000 + Hour * 48 ∧
    ¬ ∃ (sign : AppClaims → String → String)
        (parse : Int → String → String → Except ValidationError Token)
        (lib : Lib) (cfg : Config) (userId : String),
      ∀ T0 now : Int,
        (Effect.next ∈ CheckAuthMiddleware cfg { lib with ParseWithClaims := parse now }
            (requestWith "/me" (sign (loginClaims userId T0) cfg.JwtSecret)) ↔
          now < T0 + Hour * 48) := by
  have hsame : ∀ userId,
      loginClaims userId 1700000000500000000 = loginClaims userId 1700000000000000000 := by
    intro userId
    simp only [loginClaims, Unix_add_48_hours]
    congr 1
  have hge : ¬ (1700172800200000000 : Int) < 1700000000000000000 + Hour * 48 := by
    norm_num [Hour]
  have hlt : (1700172800200000000 : Int) < 1700000000500000000 + Hour * 48 := by
    norm_num [Hour]
  refine ⟨(hsame "u1").symm, hge, hlt, ?_⟩
  rintro ⟨sign, parse, lib, cfg, userId, h⟩
  have h1 := h 1700000000000000000 1700172800200000000
  have h2 := h 1700000000500000000 1700172800200000000
  rw [hsame userId] at h2
  exact hge (h1.mp (h2.mpr hlt))

/-- C6, amended: a correctly signed token carrying the claims `LoginHandler` issues
at the instant `T0` expires at the Unix second `Unix T0 + 172800`. Validation, run
at the instant `lib.Now`, succeeds at every instant whose Unix second is at or
before that expiry, the expiry second itself included, and then the middleware
lets the request through and `MeHandler` answers the identity; it fails as expired
at every instant whose Unix second is after the expiry (the expiry not being 0,
which is read as no expiry), and then both answer 401. -/
theorem C6_validation_by_unix_second (codec : TokenCodec) (cfg : Config) (lib : Lib)
    (repo : Repository) (r : Request) (userId tokenString : String) (T0 : Int) (user : User)
    (hclaims : codec.claimsOf tokenString = some (loginClaims userId T0))
    (hsig : codec.signatureOk tokenString cfg.JwtSecret = true)
    (hpath : r.Path ∉ NO_AUTH_NEEDED)
    (hheader : TrimSpace (Header.Get r.Header "Authorization") = tokenString)
    (hne : tokenString ≠ "")
    (hstore : repo.GetUserById userId = (some user, none)) :
    (loginClaims userId T0).ExpiresAt = Unix T0 + 172800 ∧
    (Unix lib.Now ≤ Unix T0 + 172800 →
      validate codec lib.Now tokenString cfg.JwtSecret =
        .ok { Claims := some (loginClaims userId T0), Valid := true } ∧
      CheckAuthMiddleware cfg (withValidate codec lib) r =
        [Effect.parseWithClaims tokenString cfg.JwtSecret, Effect.next] ∧
      MeHandler cfg (withValidate codec lib) repo r =
        [Effect.parseWithClaims tokenString cfg.JwtSecret,
         Effect.setHeader "Content-Type" "application/json",
         Effect.encodeSignUpResponse { Id := user.Id, Email := user.Email }]) ∧
    (Unix T0 + 172800 < Unix lib.Now → Unix T0 + 172800 ≠ 0 →
      validate codec lib.Now tokenString cfg.JwtSecret = .error ValidationError.expired ∧
      CheckAuthMiddleware cfg (withValidate codec lib) r =
        [Effect.parseWithClaims tokenString cfg.JwtSecret,
         Effect.httpError "Unauthorized" 401] ∧
      MeHandler cfg (withValidate codec lib) repo r =
        Effect.parseWithClaims tokenString cfg.JwtSecret ::
          respondError 401 "invalid token") ∧
    (Unix lib.Now = (loginClaims userId T0).ExpiresAt →
      validate codec lib.Now tokenString cfg.JwtSecret =
        .ok { Claims := some (loginClaims userId T0), Valid := true } ∧
      CheckAuthMiddleware cfg (withValidate codec lib) r =
        [Effect.parseWithClaims tokenString cfg.JwtSecret, Effect.next]) := by
  have hcheck := (shouldCheckToken_eq_true_iff r.Path).mpr hpath
  have hexp := loginClaims_ExpiresAt userId T0
  have hgood : ∀ (_ : Unix lib.Now ≤ Unix T0 + 172800),
      validate codec lib.Now tokenString cfg.JwtSecret =
        .ok { Claims := some (loginClaims userId T0), Valid := true } := by
    intro h
    have hle : Unix lib.Now ≤ (loginClaims userId T0).ExpiresAt := by rw [hexp]; exact h
    simp [validate, hclaims, hsig, hle]
  have hgate : ∀ (_ : Unix lib.Now ≤ Unix T0 + 172800),
      CheckAuthMiddleware cfg (withValidate codec lib) r =
        [Effect.parseWithClaims tokenString cfg.JwtSecret, Effect.next] := by
    intro h
    simp [CheckAuthMiddleware, withValidate, hcheck, hheader, hne, hgood h]
  refine ⟨hexp, ?_, ?_, ?_⟩
  · intro h
    refine ⟨hgood h, hgate h, ?_⟩
    have huid : (loginClaims userId T0).UserId = userId := rfl
    simp [MeHandler, withValidate, hheader, hgood h, huid, hstore]
  · intro h h0
    have hnz : ¬ (loginClaims userId T0).ExpiresAt = 0 := by rw [hexp]; exact h0
    have hnle : ¬ Unix lib.Now ≤ (loginClaims userId T0).ExpiresAt := by rw [hexp]; omega
    have hv : validate codec lib.Now tokenString cfg.JwtSecret =
        .error ValidationError.expired := by
      simp [validate, hclaims, hsig, hnz, hnle]
    refine ⟨hv, ?_, ?_⟩
    · simp [CheckAuthMiddleware, withValidate, hcheck, hheader, hne, hv]
    · simp [MeHandler, withValidate, hheader, hv]
  · intro h
    have hle : Unix lib.Now ≤ Unix T0 + 172800 := by rw [h, hexp]
    exact ⟨hgood hle, hgate hle⟩

/-- The token "tok-u1" issued at instant 0 expires at the second 172800: the
middleware lets it through during that very second and answers 401 one second
later. -/
theorem C6_validation_by_unix_second_witness :
    CheckAuthMiddleware sampleConfig
        (withValidate sampleCodec { sampleLib with Now := 172800999999999 })
        (requestWith "/me" "tok-u1") =
      [Effect.parseWithClaims "tok-u1" "s3cret", Effect.next] ∧
    CheckAuthMiddleware sampleConfig
        (withValidate sampleCodec { sampleLib with Now := 172801000000000 })
        (requestWith "/me" "tok-u1") =
      [Effect.parseWithClaims "tok-u1" "s3cret", Effect.httpError "Unauthorized" 401] :=
  ⟨((C6_validation_by_unix_second sampleCodec sampleConfig
      { sampleLib with Now := 172800999999999 } sampleRepo
      (requestWith "/me" "tok-u1") "u1" "tok-u1" 0
      { Id := "u1", Email := "ann@x.com", Password := "" }
      (by decide) (by decide) (by decide) (by decide) (by decide) (by decide)).2.2.2
      (by decide)).2,
   ((C6_validation_by_unix_second sampleCodec sampleConfig
      { sampleLib with Now := 172801000000000 } sampleRepo
      (requestWith "/me" "tok-u1") "u1" "tok-u1" 0
      { Id := "u1", Email := "ann@x.com", Password := "" }
      (by decide) (by decide) (by decide) (by decide) (by decide) (by decide)).2.2.1
      (by decide) (by decide)).2.1⟩

/-! ### Login -/

/-- When no row matches, the Postgres `GetUserByEmail` returns the zero-valued user
and a nil error. -/
theorem GetUserByEmail_no_row (db : DB) (email : String)
    (hnorow : db.QueryContext "SELECT id, email, password FROM users WHERE email = $1" email =
      .ok { scans := [], Err := none }) :
    PostgresRepository.GetUserByEmail db email =
      (some { Id := "", Email := "", Password := "" }, none) := by
  simp [PostgresRepository.GetUserByEmail, hnorow, extractUserFromResult,
    extractUserFromResultLoop]

/-- C7: for a login request that decodes, `LoginHandler` writes status 401 and the
body "invalid credentials" alike when the store reports no user as a nil user, when
it returns a user whose stored hash the password does not verify against, and when
the Postgres `GetUserByEmail` finds no row and returns the zero-valued user (whose
empty hash bcrypt refuses, hypothesis `hempty`). -/
theorem C7_login_failures_indistinguishable (cfg : Config) (lib : Lib)
    (repoAbsent repoFound : Repository) (db : DB) (r : Request)
    (request : SignUpLoginRequest) (user : User) (err errEmpty : String)
    (hdecode : decode lib r.Body = .ok request)
    (habsent : repoAbsent.GetUserByEmail request.Email = (none, none))
    (hfound : repoFound.GetUserByEmail request.Email = (some user, none))
    (hwrong : lib.CompareHashAndPassword user.Password request.Password = some err)
    (hnorow : db.QueryContext "SELECT id, email, password FROM users WHERE email = $1"
      request.Email = .ok { scans := [], Err := none })
    (hempty : lib.CompareHashAndPassword "" request.Password = some errEmpty) :
    LoginHandler cfg lib repoAbsent r =
      [Effect.writeHeader 401, Effect.write "invalid credentials"] ∧
    LoginHandler cfg lib repoFound r = LoginHandler cfg lib repoAbsent r ∧
    LoginHandler cfg lib (PostgresRepository db) r = LoginHandler cfg lib repoAbsent r ∧
    statusOf (LoginHandler cfg lib repoAbsent r) = some 401 := by
  have h1 : LoginHandler cfg lib repoAbsent r =
      [Effect.writeHeader 401, Effect.write "invalid credentials"] := by
    simp [LoginHandler, hdecode, habsent, respondError]
  have h2 : LoginHandler cfg lib repoFound r =
      [Effect.writeHeader 401, Effect.write "invalid credentials"] := by
    simp [LoginHandler, hdecode, hfound, hwrong, respondError]
  have h3 : LoginHandler cfg lib (PostgresRepository db) r =
      [Effect.writeHeader 401, Effect.write "invalid credentials"] := by
    have hz := GetUserByEmail_no_row db request.Email hnorow
    simp [LoginHandler, hdecode, PostgresRepository, hz, hempty, respondError]
  rw [h1, h2, h3]
  simp [statusOf]

/-- Logging in as "bob@x.com", whom neither store knows, and as "ann@x.com" with a
password that does not match, gives the same 401. -/
theorem C7_login_failures_indistinguishable_witness :
    LoginHandler sampleConfig sampleLib sampleRepo { Path := "/login", Header := [], Body := "bob" } =
      [Effect.writeHeader 401, Effect.write "invalid credentials"] ∧
    LoginHandler sampleConfig sampleLib
        { sampleRepo with GetUserByEmail := fun _ =>
            (some { Id := "u2", Email := "bob@x.com", Password := "hash:else" }, none) }
        { Path := "/login", Header := [], Body := "bob" } =
      LoginHandler sampleConfig sampleLib sampleRepo
        { Path := "/login", Header := [], Body := "bob" } ∧
    LoginHandler sampleConfig sampleLib (PostgresRepository sampleDB)
        { Path := "/login", Header := [], Body := "bob" } =
      LoginHandler sampleConfig sampleLib sampleRepo
        { Path := "/login", Header := [], Body := "bob" } ∧
    statusOf (LoginHandler sampleConfig sampleLib sampleRepo
      { Path := "/login", Header := [], Body := "bob" }) = some 401 :=
  C7_login_failures_indistinguishable sampleConfig sampleLib sampleRepo
    { sampleRepo with GetUserByEmail := fun _ =>
        (some { Id := "u2", Email := "bob@x.com", Password := "hash:else" }, none) }
    sampleDB { Path := "/login", Header := [], Body := "bob" }
    { Email := "bob@x.com", Password := "pw" }
    { Id := "u2", Email := "bob@x.com", Password := "hash:else" }
    "hash and password differ" "hash and password differ"
    rfl rfl rfl rfl rfl rfl

/-- Every token `LoginHandler` answers comes from the path on which the request
decoded, the store returned a user without error, the password verified and the
claims of that user were signed with the configured secret. -/
theorem LoginHandler_issuedTokens (cfg : Config) (lib : Lib) (repo : Repository)
    (r : Request) (tok : String) (hissued : tok ∈ issuedTokens (LoginHandler cfg lib repo r)) :
    ∃ request user, decode lib r.Body = .ok request ∧
      repo.GetUserByEmail request.Email = (some user, none) ∧
      lib.CompareHashAndPassword user.Password request.Password = none ∧
      lib.SignedString (loginClaims user.Id lib.Now) cfg.JwtSecret = .ok tok := by
  unfold LoginHandler at hissued
  cases hd : decode lib r.Body with
  | error e => simp [hd, respondError, issuedTokens] at hissued
  | ok request =>
    rcases hu : repo.GetUserByEmail request.Email with ⟨user, err⟩
    cases err with
    | some e => simp [hd, hu, respondError, issuedTokens] at hissued
    | none =>
      cases user with
      | none => simp [hd, hu, respondError, issuedTokens] at hissued
      | some u =>
        cases hc : lib.CompareHashAndPassword u.Password request.Password with
        | some e => simp [hd, hu, hc, respondError, issuedTokens] at hissued
        | none =>
          cases hs : lib.SignedString (loginClaims u.Id lib.Now) cfg.JwtSecret with
          | error e => simp [hd, hu, hc, hs, respondError, issuedTokens] at hissued
          | ok signedToken =>
            simp [hd, hu, hc, hs, issuedTokens] at hissued
            exact ⟨request, u, rfl, hu, hc, by rw [hs, hissued]⟩

/-- C8: when `LoginHandler` finds a user by email and the password verifies against
the stored hash, it answers 200 with the token obtained by signing, with the
configured `JwtSecret`, claims whose `UserId` is the stored user's `Id` and whose
`ExpiresAt` is the Unix time of the login instant plus 172800 seconds (signing with
HS256 and a byte-slice key returns no error, hypothesis `hsign`); and a token is
answered on no other path, for any request, store and library behaviour. -/
theorem C8_login_issues_48h_token (cfg : Config) (lib : Lib) (repo : Repository)
    (r : Request) (request : SignUpLoginRequest) (user : User) (signedToken : String)
    (hdecode : decode lib r.Body = .ok request)
    (hfound : repo.GetUserByEmail request.Email = (some user, none))
    (hverify : lib.CompareHashAndPassword user.Password request.Password = none)
    (hsign : lib.SignedString { UserId := user.Id, ExpiresAt := Unix lib.Now + 172800 }
      cfg.JwtSecret = .ok signedToken) :
    LoginHandler cfg lib repo r =
      [Effect.setHeader "Content-Type" "application/json",
       Effect.encodeLoginResponse { Token := signedToken }] ∧
    statusOf (LoginHandler cfg lib repo r) = some 200 ∧
    issuedTokens (LoginHandler cfg lib repo r) = [signedToken] ∧
    loginClaims user.Id lib.Now = { UserId := user.Id, ExpiresAt := Unix lib.Now + 172800 } ∧
    (∀ (cfg2 : Config) (lib2 : Lib) (repo2 : Repository) (r2 : Request) (tok : String),
      tok ∈ issuedTokens (LoginHandler cfg2 lib2 repo2 r2) →
      ∃ request2 user2, decode lib2 r2.Body = .ok request2 ∧
        repo2.GetUserByEmail request2.Email = (some user2, none) ∧
        lib2.CompareHashAndPassword user2.Password request2.Password = none ∧
        lib2.SignedString { UserId := user2.Id, ExpiresAt := Unix lib2.Now + 172800 }
          cfg2.JwtSecret = .ok tok) := by
  have hclaims : ∀ (id : String) (t : Int),
      loginClaims id t = { UserId := id, ExpiresAt := Unix t + 172800 } := by
    intro id t
    simp [loginClaims, Unix_add_48_hours]
  have hrun : LoginHandler cfg lib repo r =
      [Effect.setHeader "Content-Type" "application/json",
       Effect.encodeLoginResponse { Token := signedToken }] := by
    simp [LoginHandler, hdecode, hfound, hverify, hclaims, hsign]
  rw [hrun]
  refine ⟨rfl, rfl, rfl, hclaims user.Id lib.Now, ?_⟩
  intro cfg2 lib2 repo2 r2 tok htok
  obtain ⟨request2, user2, h1, h2, h3, h4⟩ := LoginHandler_issuedTokens cfg2 lib2 repo2 r2 tok htok
  exact ⟨request2, user2, h1, h2, h3, by rw [← hclaims]; exact h4⟩

/-- Logging in as "ann@x.com" with her password answers the token "tok-u1". -/
theorem C8_login_issues_48h_token_witness :
    LoginHandler sampleConfig sampleLib sampleRepo
        { Path := "/login", Header := [], Body := "ann" } =
      [Effect.setHeader "Content-Type" "application/json",
       Effect.encodeLoginResponse { Token := "tok-u1" }] :=
  (C8_login_issues_48h_token sampleConfig sampleLib sampleRepo
    { Path := "/login", Header := [], Body := "ann" }
    { Email := "ann@x.com", Password := "pw" }
    { Id := "u1", Email := "ann@x.com", Password := "hash:pw" } "tok-u1"
    rfl rfl rfl rfl).1

/-! ### The identity behind `/me` -/

theorem extractUserFromResultLoop_erase (scans : List (Except String User)) (user : User) :
    extractUserFromResultLoop (scans.map (Except.map erasePassword)) (erasePassword user) =
      Except.map erasePassword (extractUserFromResultLoop scans user) := by
  induction scans generalizing user with
  | nil => rfl
  | cons scan rest ih =>
    cases scan with
    | error e => rfl
    | ok row => exact ih row

theorem extractUserFromResult_erase (rows : Rows) :
    extractUserFromResult rows.erasePasswords =
      Except.map erasePassword (extractUserFromResult rows) := by
  have hloop := extractUserFromResultLoop_erase rows.scans ⟨"", "", ""⟩
  have hzero : erasePassword ⟨"", "", ""⟩ = ⟨"", "", ""⟩ := rfl
  rw [hzero] at hloop
  unfold extractUserFromResult Rows.erasePasswords
  simp only [hloop]
  cases extractUserFromResultLoop rows.scans ⟨"", "", ""⟩ with
  | error e => rfl
  | ok user =>
    cases hErr : rows.Err with
    | none => simp [Except.map]
    | some e => simp [Except.map]

/-- The Postgres `GetUserById` reads a query result only up to its password hashes. -/
theorem GetUserById_erase (db1 db2 : DB) (hsame : SameUpToPasswords db1 db2) (id : String) :
    PostgresRepository.GetUserById db1 id = PostgresRepository.GetUserById db2 id := by
  have h := hsame "SELECT id, email, password FROM users WHERE id = $1" id
  unfold PostgresRepository.GetUserById
  cases h1 : db1.QueryContext "SELECT id, email, password FROM users WHERE id = $1" id with
  | error e1 =>
    cases h2 : db2.QueryContext "SELECT id, email, password FROM users WHERE id = $1" id with
    | error e2 =>
      rw [h1, h2] at h
      simp only [eraseQueryResult, Except.error.injEq] at h
      simp [h]
    | ok rows2 => rw [h1, h2] at h; simp [eraseQueryResult] at h
  | ok rows1 =>
    cases h2 : db2.QueryContext "SELECT id, email, password FROM users WHERE id = $1" id with
    | error e2 => rw [h1, h2] at h; simp [eraseQueryResult] at h
    | ok rows2 =>
      rw [h1, h2] at h
      simp only [eraseQueryResult, Except.ok.injEq] at h
      have hx := extractUserFromResult_erase rows1
      rw [h, extractUserFromResult_erase rows2] at hx
      cases hr1 : extractUserFromResult rows1 with
      | error e1 =>
        cases hr2 : extractUserFromResult rows2 with
        | error e2 =>
          rw [hr1, hr2] at hx
          simp only [Except.map, Except.error.injEq] at hx
          simp [hr1, hr2, hx]
        | ok u2 => rw [hr1, hr2] at hx; simp [Except.map] at hx
      | ok u1 =>
        cases hr2 : extractUserFromResult rows2 with
        | error e2 => rw [hr1, hr2] at hx; simp [Except.map] at hx
        | ok u2 =>
          rw [hr1, hr2] at hx
          simp only [Except.map, Except.ok.injEq] at hx
          have hid : u1.Id = u2.Id := by
            have := congrArg User.Id hx
            simpa [erasePassword] using this.symm
          have hemail : u1.Email = u2.Email := by
            have := congrArg User.Email hx
            simpa [erasePassword] using this.symm
          simp [hr1, hr2, hid, hemail]

/-- The effects of `MeHandler` depend on the store only through the lookup by id, read
up to the password hash of the returned user. -/
theorem MeHandler_erase (cfg : Config) (lib : Lib) (repo1 repo2 : Repository) (r : Request)
    (hsame : ∀ id, eraseLookup (repo1.GetUserById id) = eraseLookup (repo2.GetUserById id)) :
    MeHandler cfg lib repo1 r = MeHandler cfg lib repo2 r := by
  simp only [MeHandler]
  cases hp : lib.ParseWithClaims (TrimSpace (Header.Get r.Header "Authorization"))
      cfg.JwtSecret with
  | error kind => rfl
  | ok token =>
    cases hc : token.Claims with
    | none => simp [hc]
    | some claims =>
      cases hv : token.Valid with
      | false => simp [hc, hv]
      | true =>
        have h := hsame claims.UserId
        rcases hu1 : repo1.GetUserById claims.UserId with ⟨user1, err1⟩
        rcases hu2 : repo2.GetUserById claims.UserId with ⟨user2, err2⟩
        rw [hu1, hu2] at h
        simp only [eraseLookup, Prod.mk.injEq] at h
        obtain ⟨huser, herr⟩ := h
        subst herr
        cases err1 with
        | some e => simp [hc, hv, hu1, hu2]
        | none =>
          cases user1 with
          | none =>
            cases user2 with
            | none => simp [hc, hv, hu1, hu2]
            | some u2 => simp at huser
          | some u1 =>
            cases user2 with
            | none => simp at huser
            | some u2 =>
              simp only [Option.map_some', Option.some.injEq] at huser
              have hid : u1.Id = u2.Id := by
                have := congrArg User.Id huser
                simpa [erasePassword] using this
              have hemail : u1.Email = u2.Email := by
                have := congrArg User.Email huser
                simpa [erasePassword] using this
              simp [hc, hv, hu1, hu2, hid, hemail]

/-- A user the Postgres `GetUserById` returns has an empty password field. -/
theorem GetUserById_password_empty (db : DB) (id : String) (user : User)
    (hok : PostgresRepository.GetUserById db id = (some user, none)) : user.Password = "" := by
  unfold PostgresRepository.GetUserById at hok
  cases hq : db.QueryContext "SELECT id, email, password FROM users WHERE id = $1" id with
  | error e => simp [hq] at hok
  | ok rows =>
    cases hx : extractUserFromResult rows with
    | error e => simp [hq, hx] at hok
    | ok u =>
      simp [hq, hx] at hok
      rw [← hok]

theorem sampleDB_same_up_to_passwords : SameUpToPasswords sampleDB sampleDB2 := by
  intro query arg
  simp only [sampleDB, sampleDB2]
  by_cases h : (arg == "u1" || arg == "ann@x.com") = true
  · rw [if_pos h, if_pos h]
    rfl
  · rw [if_neg h, if_neg h]

/-- C9: every user the Postgres `GetUserById` returns without error has an empty
`Password`, and what `MeHandler` does does not depend on stored password hashes: two
databases that answer alike up to password hashes, and more generally two stores
whose lookups by id agree up to the password hash of the user, give the same
effects for every request. -/
theorem C9_me_independent_of_password_hash (cfg : Config) (lib : Lib) (db1 db2 : DB)
    (repo1 repo2 : Repository) (r : Request)
    (hdb : SameUpToPasswords db1 db2)
    (hrepo : ∀ id, eraseLookup (repo1.GetUserById id) = eraseLookup (repo2.GetUserById id)) :
    (∀ (db : DB) (id : String) (user : User),
      PostgresRepository.GetUserById db id = (some user, none) → user.Password = "") ∧
    MeHandler cfg lib (PostgresRepository db1) r = MeHandler cfg lib (PostgresRepository db2) r ∧
    MeHandler cfg lib repo1 r = MeHandler cfg lib repo2 r := by
  refine ⟨GetUserById_password_empty, ?_, MeHandler_erase cfg lib repo1 repo2 r hrepo⟩
  apply MeHandler_erase
  intro id
  show eraseLookup (PostgresRepository.GetUserById db1 id) =
    eraseLookup (PostgresRepository.GetUserById db2 id)
  rw [GetUserById_erase db1 db2 hdb id]

/-- Two tables that differ in the password hash of "u1" answer `/me` alike, and so
do a store returning the hash and a store returning none. -/
theorem C9_me_independent_of_password_hash_witness :
    MeHandler sampleConfig sampleLib (PostgresRepository sampleDB) (requestWith "/me" "tok-1") =
      MeHandler sampleConfig sampleLib (PostgresRepository sampleDB2)
        (requestWith "/me" "tok-1") ∧
    MeHandler sampleConfig sampleLib
        { sampleRepo with GetUserById := fun _ =>
            (some { Id := "u1", Email := "ann@x.com", Password := "hash:pw" }, none) }
        (requestWith "/me" "tok-1") =
      MeHandler sampleConfig sampleLib
        { sampleRepo with GetUserById := fun _ =>
            (some { Id := "u1", Email := "ann@x.com", Password := "" }, none) }
        (requestWith "/me" "tok-1") :=
  (C9_me_independent_of_password_hash sampleConfig sampleLib sampleDB sampleDB2
    { sampleRepo with GetUserById := fun _ =>
        (some { Id := "u1", Email := "ann@x.com", Password := "hash:pw" }, none) }
    { sampleRepo with GetUserById := fun _ =>
        (some { Id := "u1", Email := "ann@x.com", Password := "" }, none) }
    (requestWith "/me" "tok-1") sampleDB_same_up_to_passwords (fun _ => rfl)).2

/-- C10, as stated, fails: with the valid token "tok-1" and a store whose lookup
reports an error, `MeHandler` answers 500 "internal server error", while for the
invalid token "bad" it answers 401 "invalid token". -/
theorem C10_counterexample :
    MeHandler sampleConfig sampleLib failingRepo (requestWith "/me" "tok-1") =
      [Effect.parseWithClaims "tok-1" "s3cret", Effect.logPrintln "connection refused",
       Effect.writeHeader 500, Effect.write "internal server error"] ∧
    statusOf (MeHandler sampleConfig sampleLib failingRepo (requestWith "/me" "tok-1")) =
      some 500 ∧
    MeHandler sampleConfig sampleLib failingRepo (requestWith "/me" "bad") =
      [Effect.parseWithClaims "bad" "s3cret", Effect.writeHeader 401,
       Effect.write "invalid token"] ∧
    statusOf (MeHandler sampleConfig sampleLib failingRepo (requestWith "/me" "bad")) =
      some 401 := by
  decide

/-- C10, amended: for every request to `/me` carrying a valid token, if the lookup
by the token's subject id reports an error, `MeHandler` logs it and answers 500
"internal server error"; this differs, in status and body, from the 401
"invalid token" the same request gets when the parser rejects the token. -/
theorem C10_store_error_answers_500 (cfg : Config) (lib : Lib) (repo : Repository)
    (r : Request) (token : Token) (claims : AppClaims) (user : Option User) (err : String)
    (hparse : lib.ParseWithClaims (TrimSpace (Header.Get r.Header "Authorization"))
      cfg.JwtSecret = .ok token)
    (hclaims : token.Claims = some claims) (hvalid : token.Valid = true)
    (hstore : repo.GetUserById claims.UserId = (user, some err)) :
    MeHandler cfg lib repo r =
      [Effect.parseWithClaims (TrimSpace (Header.Get r.Header "Authorization")) cfg.JwtSecret,
       Effect.logPrintln err, Effect.writeHeader 500, Effect.write "internal server error"] ∧
    statusOf (MeHandler cfg lib repo r) = some 500 ∧
    (∀ (lib2 : Lib) (kind : ValidationError),
      lib2.ParseWithClaims (TrimSpace (Header.Get r.Header "Authorization")) cfg.JwtSecret =
        .error kind →
      MeHandler cfg lib2 repo r =
        [Effect.parseWithClaims (TrimSpace (Header.Get r.Header "Authorization"))
           cfg.JwtSecret,
         Effect.writeHeader 401, Effect.write "invalid token"] ∧
      statusOf (MeHandler cfg lib2 repo r) = some 401 ∧
      MeHandler cfg lib2 repo r ≠ MeHandler cfg lib repo r) := by
  have hrun : MeHandler cfg lib repo r =
      [Effect.parseWithClaims (TrimSpace (Header.Get r.Header "Authorization")) cfg.JwtSecret,
       Effect.logPrintln err, Effect.writeHeader 500, Effect.write "internal server error"] := by
    simp [MeHandler, hparse, hclaims, hvalid, hstore, respondError]
  refine ⟨hrun, by rw [hrun]; rfl, ?_⟩
  intro lib2 kind hbad
  have hrun2 : MeHandler cfg lib2 repo r =
      [Effect.parseWithClaims (TrimSpace (Header.Get r.Header "Authorization")) cfg.JwtSecret,
       Effect.writeHeader 401, Effect.write "invalid token"] := by
    simp [MeHandler, hbad, respondError]
  refine ⟨hrun2, by rw [hrun2]; rfl, ?_⟩
  rw [hrun, hrun2]
  simp

/-- The valid token "tok-1" over a failing store is answered 500. -/
theorem C10_store_error_answers_500_witness :
    MeHandler sampleConfig sampleLib failingRepo (requestWith "/me" "tok-1") =
      [Effect.parseWithClaims (TrimSpace (Header.Get (requestWith "/me" "tok-1").Header
         "Authorization")) sampleConfig.JwtSecret,
       Effect.logPrintln "connection refused", Effect.writeHeader 500,
       Effect.write "internal server error"] :=
  (C10_store_error_answers_500 sampleConfig sampleLib failingRepo (requestWith "/me" "tok-1")
    { Claims := some { UserId := "u1", ExpiresAt := 172800 }, Valid := true }
    { UserId := "u1", ExpiresAt := 172800 } none "connection refused" rfl rfl rfl rfl).1

/-! ### Unknown subject -/

/-- When no row matches, the Postgres `GetUserById` returns the zero-valued user and
a nil error. -/
theorem GetUserById_no_row (db : DB) (id : String)
    (hnorow : db.QueryContext "SELECT id, email, password FROM users WHERE id = $1" id =
      .ok { scans := [], Err := none }) :
    PostgresRepository.GetUserById db id =
      (some { Id := "", Email := "", Password := "" }, none) := by
  simp [PostgresRepository.GetUserById, hnorow, extractUserFromResult,
    extractUserFromResultLoop]

/-- C11, what the code does: for a request to `/me` with a valid token whose subject
id matches no row, the Postgres `GetUserById` returns the zero-valued user with a
nil error, so `MeHandler` answers 200 with the identity body of empty id and email,
not the 401 "invalid token" of its `user == nil` branch. -/
theorem C11_unknown_subject_answered_200 (cfg : Config) (lib : Lib) (db : DB) (r : Request)
    (token : Token) (claims : AppClaims)
    (hparse : lib.ParseWithClaims (TrimSpace (Header.Get r.Header "Authorization"))
      cfg.JwtSecret = .ok token)
    (hclaims : token.Claims = some claims) (hvalid : token.Valid = true)
    (hnorow : db.QueryContext "SELECT id, email, password FROM users WHERE id = $1"
      claims.UserId = .ok { scans := [], Err := none }) :
    MeHandler cfg lib (PostgresRepository db) r =
      [Effect.parseWithClaims (TrimSpace (Header.Get r.Header "Authorization")) cfg.JwtSecret,
       Effect.setHeader "Content-Type" "application/json",
       Effect.encodeSignUpResponse { Id := "", Email := "" }] ∧
    statusOf (MeHandler cfg lib (PostgresRepository db) r) = some 200 ∧
    MeHandler cfg lib (PostgresRepository db) r ≠
      Effect.parseWithClaims (TrimSpace (Header.Get r.Header "Authorization")) cfg.JwtSecret ::
        respondError 401 "invalid token" := by
  have hz := GetUserById_no_row db claims.UserId hnorow
  have hrun : MeHandler cfg lib (PostgresRepository db) r =
      [Effect.parseWithClaims (TrimSpace (Header.Get r.Header "Authorization")) cfg.JwtSecret,
       Effect.setHeader "Content-Type" "application/json",
       Effect.encodeSignUpResponse { Id := "", Email := "" }] := by
    simp [MeHandler, hparse, hclaims, hvalid, PostgresRepository, hz]
  rw [hrun]
  simp [statusOf, respondError]

/-- The valid token "tok-1" of the user "u1" over a users table without rows is
answered 200 with an empty identity. -/
theorem C11_unknown_subject_answered_200_witness :
    MeHandler sampleConfig sampleLib (PostgresRepository emptyDB) (requestWith "/me" "tok-1") =
      [Effect.parseWithClaims "tok-1" "s3cret",
       Effect.setHeader "Content-Type" "application/json",
       Effect.encodeSignUpResponse { Id := "", Email := "" }] :=
  (C11_unknown_subject_answered_200 sampleConfig sampleLib emptyDB (requestWith "/me" "tok-1")
    { Claims := some { UserId := "u1", ExpiresAt := 172800 }, Valid := true }
    { UserId := "u1", ExpiresAt := 172800 } rfl rfl rfl rfl).1

/-! ### Signup -/

/-- The run of `SignUpHandler` once the body has decoded, an identifier has been
generated and the password hashed: the insert, then the answer its outcome selects. -/
theorem SignUpHandler_after_hash (lib : Lib) (repo : Repository) (r : Request)
    (req : SignUpLoginRequest) (id hash : String)
    (hdecode : decode lib r.Body = .ok req) (hid : lib.NewRandom = .ok id)
    (hhash : lib.GenerateFromPassword req.Password = .ok hash) :
    SignUpHandler lib repo r =
      Effect.insertUser { Id := id, Email := req.Email, Password := hash } ::
        match repo.InsertUser { Id := id, Email := req.Email, Password := hash } with
        | some err => respondError 500 err
        | none =>
          [Effect.setHeader "Content-Type" "application/json", Effect.writeHeader 201,
           Effect.encodeSignUpResponse { Id := id, Email := req.Email }] := by
  simp [SignUpHandler, hdecode, hid, hhash]

/-- C12: for a signup request that decodes to an email and a password, when the
identifier is generated, the password is hashed and the insert succeeds,
`SignUpHandler` hands exactly one user to the store, with the request's email, the
generated identifier and the hash output as password, and answers 201 with the
response of fields id and email, equal to those of the inserted user; nothing it
writes to the response holds the password or the hash. -/
theorem C12_signup_inserts_and_answers_201 (lib : Lib) (repo : Repository) (r : Request)
    (req : SignUpLoginRequest) (id hash : String)
    (hdecode : decode lib r.Body = .ok req) (hid : lib.NewRandom = .ok id)
    (hhash : lib.GenerateFromPassword req.Password = .ok hash)
    (hinsert : repo.InsertUser { Id := id, Email := req.Email, Password := hash } = none) :
    SignUpHandler lib repo r =
      [Effect.insertUser { Id := id, Email := req.Email, Password := hash },
       Effect.setHeader "Content-Type" "application/json", Effect.writeHeader 201,
       Effect.encodeSignUpResponse { Id := id, Email := req.Email }] ∧
    insertedUsers (SignUpHandler lib repo r) =
      [{ Id := id, Email := req.Email, Password := hash }] ∧
    statusOf (SignUpHandler lib repo r) = some 201 ∧
    (SignUpHandler lib repo r).filter writesResponse =
      [Effect.setHeader "Content-Type" "application/json", Effect.writeHeader 201,
       Effect.encodeSignUpResponse { Id := id, Email := req.Email }] := by
  have hrun := SignUpHandler_after_hash lib repo r req id hash hdecode hid hhash
  rw [hinsert] at hrun
  rw [hrun]
  simp [insertedUsers, statusOf, writesResponse]

/-- Signing up "ann@x.com" with the password "pw" stores the hash "hash:pw" under the
identifier "u1" and answers 201 with the identifier and the email. -/
theorem C12_signup_inserts_and_answers_201_witness :
    SignUpHandler sampleLib sampleRepo { Path := "/signup", Header := [], Body := "ann" } =
      [Effect.insertUser { Id := "u1", Email := "ann@x.com", Password := "hash:pw" },
       Effect.setHeader "Content-Type" "application/json", Effect.writeHeader 201,
       Effect.encodeSignUpResponse { Id := "u1", Email := "ann@x.com" }] :=
  (C12_signup_inserts_and_answers_201 sampleLib sampleRepo
    { Path := "/signup", Header := [], Body := "ann" }
    { Email := "ann@x.com", Password := "pw" } "u1" "hash:pw" rfl rfl rfl rfl).1

/-- The helper `decode` fails exactly when the JSON decoder does, with the decoder's
text behind "error decoding request: ", and otherwise returns the decoded request. -/
theorem decode_eq (lib : Lib) (body : String) :
    decode lib body =
      match lib.jsonDecode body with
      | .error err => .error ("error decoding request: " ++ err)
      | .ok req => .ok req := rfl

/-- C13: `SignUpHandler` answers 400 exactly when the JSON decoder fails on the
request body, and then writes only that answer; it answers 500 when the identifier
generation, the hashing or the insert fails; when decoding or hashing fails nothing
is handed to the store; and after any of these failures no 201 is written. -/
theorem C13_signup_failures (lib : Lib) (repo : Repository) (r : Request) :
    (statusOf (SignUpHandler lib repo r) = some 400 ↔
      ∃ err, lib.jsonDecode r.Body = .error err) ∧
    (∀ err, lib.jsonDecode r.Body = .error err →
      SignUpHandler lib repo r =
        [Effect.writeHeader 400, Effect.write ("error decoding request: " ++ err)]) ∧
    (∀ req err, lib.jsonDecode r.Body = .ok req → lib.NewRandom = .error err →
      SignUpHandler lib repo r = [Effect.writeHeader 500, Effect.write err]) ∧
    (∀ req id err, lib.jsonDecode r.Body = .ok req → lib.NewRandom = .ok id →
      lib.GenerateFromPassword req.Password = .error err →
      SignUpHandler lib repo r =
        [Effect.logPrintln err, Effect.writeHeader 500, Effect.write err]) ∧
    (∀ req id hash err, lib.jsonDecode r.Body = .ok req → lib.NewRandom = .ok id →
      lib.GenerateFromPassword req.Password = .ok hash →
      repo.InsertUser { Id := id, Email := req.Email, Password := hash } = some err →
      SignUpHandler lib repo r =
        [Effect.insertUser { Id := id, Email := req.Email, Password := hash },
         Effect.writeHeader 500, Effect.write err]) ∧
    (((∃ err, lib.jsonDecode r.Body = .error err) ∨
        (∃ req err, lib.jsonDecode r.Body = .ok req ∧
          lib.GenerateFromPassword req.Password = .error err)) →
      insertedUsers (SignUpHandler lib repo r) = []) ∧
    (((∃ err, lib.jsonDecode r.Body = .error err) ∨
        (∃ err, lib.NewRandom = .error err) ∨
        (∃ req err, lib.jsonDecode r.Body = .ok req ∧
          lib.GenerateFromPassword req.Password = .error err) ∨
        (∃ user err, repo.InsertUser user = some err ∧
          user ∈ insertedUsers (SignUpHandler lib repo r))) →
      Effect.writeHeader 201 ∉ SignUpHandler lib repo r ∧
      statusOf (SignUpHandler lib repo r) ≠ some 201) := by
  have hdec := decode_eq lib r.Body
  cases hj : lib.jsonDecode r.Body with
  | error e =>
    rw [hj] at hdec
    have hrun : SignUpHandler lib repo r =
        [Effect.writeHeader 400, Effect.write ("error decoding request: " ++ e)] := by
      simp [SignUpHandler, hdec, respondError]
    rw [hrun]
    simp [statusOf, insertedUsers]
  | ok req =>
    rw [hj] at hdec
    have hd : decode lib r.Body = .ok req := hdec
    cases hi : lib.NewRandom with
    | error e =>
      have hrun : SignUpHandler lib repo r = [Effect.writeHeader 500, Effect.write e] := by
        simp [SignUpHandler, hd, hi, respondError]
      rw [hrun]
      simp [statusOf, insertedUsers]
    | ok id =>
      cases hh : lib.GenerateFromPassword req.Password with
      | error e =>
        have hrun : SignUpHandler lib repo r =
            [Effect.logPrintln e, Effect.writeHeader 500, Effect.write e] := by
          simp [SignUpHandler, hd, hi, hh, respondError]
        rw [hrun]
        refine ⟨?_, ?_, ?_, ?_, ?_, ?_, ?_⟩ <;>
          simp_all [statusOf, insertedUsers, respondError] <;>
          (intros; subst_vars; simp_all)
      | ok hash =>
        have hrun := SignUpHandler_after_hash lib repo r req id hash hd hi hh
        cases hins : repo.InsertUser { Id := id, Email := req.Email, Password := hash } with
        | some e =>
          rw [hins] at hrun
          rw [hrun]
          refine ⟨?_, ?_, ?_, ?_, ?_, ?_, ?_⟩ <;>
            simp_all [statusOf, insertedUsers, respondError] <;>
            (intros; subst_vars; simp_all)
        | none =>
          rw [hins] at hrun
          rw [hrun]
          refine ⟨?_, ?_, ?_, ?_, ?_, ?_, ?_⟩ <;>
            simp_all [statusOf, insertedUsers, respondError] <;>
            (intros; subst_vars; simp_all)

/-- A body the JSON decoder refuses is answered 400 with the decoder's text and
nothing is handed to the store; a body that decodes over a store refusing the
insert is answered 500 after the insert was asked. -/
theorem C13_signup_failures_witness :
    SignUpHandler sampleLib sampleRepo { Path := "/signup", Header := [], Body := "garbage" } =
      [Effect.writeHeader 400,
       Effect.write ("error decoding request: " ++ "unexpected end of JSON input")] ∧
    insertedUsers (SignUpHandler sampleLib sampleRepo
      { Path := "/signup", Header := [], Body := "garbage" }) = [] ∧
    SignUpHandler sampleLib failingRepo { Path := "/signup", Header := [], Body := "ann" } =
      [Effect.insertUser { Id := "u1", Email := "ann@x.com", Password := "hash:pw" },
       Effect.writeHeader 500, Effect.write "connection refused"] :=
  ⟨(C13_signup_failures sampleLib sampleRepo
      { Path := "/signup", Header := [], Body := "garbage" }).2.1
      "unexpected end of JSON input" rfl,
   (C13_signup_failures sampleLib sampleRepo
      { Path := "/signup", Header := [], Body := "garbage" }).2.2.2.2.2.1
      (Or.inl ⟨"unexpected end of JSON input", rfl⟩),
   (C13_signup_failures sampleLib failingRepo
      { Path := "/signup", Header := [], Body := "ann" }).2.2.2.2.1
      { Email := "ann@x.com", Password := "pw" } "u1" "hash:pw" "connection refused"
      rfl rfl rfl rfl⟩

/-- C14, as stated, fails: when the insert is refused because the email exists
(the driver reports the violated unique constraint), `SignUpHandler` over the
Postgres store answers 500, the status it also gives when the insert fails on a
lost connection; no 4xx status is written. -/
theorem C14_counterexample :
    SignUpHandler sampleLib
        (PostgresRepository (refusingDB
          "pq: duplicate key value violates unique constraint users_email_key"))
        { Path := "/signup", Header := [], Body := "ann" } =
      [Effect.insertUser { Id := "u1", Email := "ann@x.com", Password := "hash:pw" },
       Effect.writeHeader 500,
       Effect.write ("error inserting user: " ++
         "pq: duplicate key value violates unique constraint users_email_key")] ∧
    statusOf (SignUpHandler sampleLib
        (PostgresRepository (refusingDB
          "pq: duplicate key value violates unique constraint users_email_key"))
        { Path := "/signup", Header := [], Body := "ann" }) = some 500 ∧
    statusOf (SignUpHandler sampleLib
        (PostgresRepository (refusingDB "driver: bad connection"))
        { Path := "/signup", Header := [], Body := "ann" }) = some 500 := by
  decide

/-- C14, amended: whatever makes the insert fail, an existing email included,
`SignUpHandler` answers 500 and writes the text of the store's error as body; over
the Postgres store that text is "error inserting user: " followed by the driver's
message, so a duplicate email and any other store error get the same status and
differ only in the message written. -/
theorem C14_insert_failure_answers_500 (lib : Lib) (repo : Repository) (db : DB) (r : Request)
    (req : SignUpLoginRequest) (id hash err driverErr : String)
    (hdecode : decode lib r.Body = .ok req) (hid : lib.NewRandom = .ok id)
    (hhash : lib.GenerateFromPassword req.Password = .ok hash)
    (hfail : repo.InsertUser { Id := id, Email := req.Email, Password := hash } = some err)
    (hdriver : db.ExecContext "INSERT INTO users (id, email, password) VALUES ($1, $2, $3)"
      [id, req.Email, hash] = some driverErr) :
    SignUpHandler lib repo r =
      [Effect.insertUser { Id := id, Email := req.Email, Password := hash },
       Effect.writeHeader 500, Effect.write err] ∧
    statusOf (SignUpHandler lib repo r) = some 500 ∧
    SignUpHandler lib (PostgresRepository db) r =
      [Effect.insertUser { Id := id, Email := req.Email, Password := hash },
       Effect.writeHeader 500, Effect.write ("error inserting user: " ++ driverErr)] ∧
    statusOf (SignUpHandler lib (PostgresRepository db) r) = some 500 := by
  have hrun := SignUpHandler_after_hash lib repo r req id hash hdecode hid hhash
  rw [hfail] at hrun
  have hpg : (PostgresRepository db).InsertUser
      { Id := id, Email := req.Email, Password := hash } =
      some ("error inserting user: " ++ driverErr) := by
    simp [PostgresRepository, PostgresRepository.InsertUser, hdriver]
  have hrun2 := SignUpHandler_after_hash lib (PostgresRepository db) r req id hash
    hdecode hid hhash
  rw [hpg] at hrun2
  rw [hrun, hrun2]
  simp [statusOf, respondError]

/-- Signing up over a store that lost its connection is answered 500 with the
store's message. -/
theorem C14_insert_failure_answers_500_witness :
    SignUpHandler sampleLib failingRepo { Path := "/signup", Header := [], Body := "ann" } =
      [Effect.insertUser { Id := "u1", Email := "ann@x.com", Password := "hash:pw" },
       Effect.writeHeader 500, Effect.write "connection refused"] :=
  (C14_insert_failure_answers_500 sampleLib failingRepo (refusingDB "driver: bad connection")
    { Path := "/signup", Header := [], Body := "ann" }
    { Email := "ann@x.com", Password := "pw" } "u1" "hash:pw" "connection refused"
    "driver: bad connection" rfl rfl rfl rfl rfl).1

/-! ### Startup -/

/-- C15: `NewServer` returns an error, and with it no server, exactly when one of
`Port`, `JwtSecret`, `DatabaseURL` is empty; an empty `JwtSecret` is always refused,
with the message "jwt secret is required" when `Port` is not empty; otherwise it
returns a broker whose `Config()` is the given configuration. -/
theorem C15_NewServer_requires_all_fields (config : Config) :
    ((∃ msg, NewServer config = .error msg) ↔
      (config.Port = "" ∨ config.JwtSecret = "" ∨ config.DatabaseURL = "")) ∧
    (config.JwtSecret = "" → ∃ msg, NewServer config = .error msg) ∧
    (config.Port ≠ "" → config.JwtSecret = "" →
      NewServer config = .error "jwt secret is required") ∧
    (¬ (config.Port = "" ∨ config.JwtSecret = "" ∨ config.DatabaseURL = "") →
      ∃ broker, NewServer config = .ok broker ∧ broker.Config = config) := by
  unfold NewServer
  by_cases hp : config.Port = ""
  · simp [hp]
  · by_cases hj : config.JwtSecret = ""
    · simp [hp, hj]
    · by_cases hd : config.DatabaseURL = ""
      · simp [hp, hj, hd]
      · simp [hp, hj, hd, Broker.Config]

/-! ### Exact matching of the allowlist -/

/-- C17: exemption is by exact match: for an allowlisted path `p` and a non-empty
suffix `s` such that `p ++ s` is not itself allowlisted, `shouldCheckToken (p ++ s)`
is `true`, as it is for "/login/", "/signup/x", "/me" and "//"; the side condition
is needed, "/" ++ "login" and "/" ++ "signup" being allowlisted; and the match is
case-sensitive, "/Login" requires authentication. -/
theorem C17_exemption_is_exact_match (p s : String) (hp : p ∈ NO_AUTH_NEEDED) (hs : s ≠ "")
    (hnot : p ++ s ∉ NO_AUTH_NEEDED) :
    shouldCheckToken p = false ∧
    shouldCheckToken (p ++ s) = true ∧
    shouldCheckToken "/login/" = true ∧ shouldCheckToken "/signup/x" = true ∧
    shouldCheckToken "/me" = true ∧ shouldCheckToken "//" = true ∧
    shouldCheckToken ("/" ++ "login") = false ∧ shouldCheckToken ("/" ++ "signup") = false ∧
    shouldCheckToken "/Login" = true := by
  have _hs := hs
  refine ⟨(shouldCheckToken_eq_false_iff p).mpr hp,
    (shouldCheckToken_eq_true_iff (p ++ s)).mpr hnot, ?_⟩
  decide

/-- The suffix "/" after "/login" gives a path that requires authentication. -/
theorem C17_exemption_is_exact_match_witness :
    shouldCheckToken "/login" = false ∧ shouldCheckToken ("/login" ++ "/") = true :=
  ⟨(C17_exemption_is_exact_match "/login" "/" (by decide) (by decide) (by decide)).1,
   (C17_exemption_is_exact_match "/login" "/" (by decide) (by decide) (by decide)).2.1⟩

/-! ### Round trip -/

/-- C16: round trip. A signup of the email `e` with the password `p` succeeds with
the identifier `i` and the hash `h`. Assume the hasher verifies `p` against `h`, the
store returns what was inserted (by email the user inserted, by id a user of that id
and email), signing the login claims gives the token `tok` (not empty, without
surrounding white space, as every compact token is) and the parser accepts `tok`
for the same secret. Then login with `e` and `p` answers 200 with `tok`, and the
request to `/me` carrying `tok` in its Authorization header passes
`CheckAuthMiddleware` and is answered 200 with the body of id `i` and email `e`. -/
theorem C16_signup_login_me_round_trip (cfg : Config) (lib : Lib)
    (repo repoAfter : Repository) (rSignup rLogin rMe : Request)
    (e p i h tok stored : String)
    (hdecode1 : decode lib rSignup.Body = .ok { Email := e, Password := p })
    (hid : lib.NewRandom = .ok i)
    (hhash : lib.GenerateFromPassword p = .ok h)
    (hinsert : repo.InsertUser { Id := i, Email := e, Password := h } = none)
    (hdecode2 : decode lib rLogin.Body = .ok { Email := e, Password := p })
    (hbyEmail : repoAfter.GetUserByEmail e = (some { Id := i, Email := e, Password := h }, none))
    (hbyId : repoAfter.GetUserById i = (some { Id := i, Email := e, Password := stored }, none))
    (hverify : lib.CompareHashAndPassword h p = none)
    (hsign : lib.SignedString (loginClaims i lib.Now) cfg.JwtSecret = .ok tok)
    (hparse : lib.ParseWithClaims tok cfg.JwtSecret =
      .ok { Claims := some (loginClaims i lib.Now), Valid := true })
    (hne : tok ≠ "") (htrim : TrimSpace tok = tok)
    (hpath : rMe.Path = "/me") (hheader : Header.Get rMe.Header "Authorization" = tok) :
    SignUpHandler lib repo rSignup =
      [Effect.insertUser { Id := i, Email := e, Password := h },
       Effect.setHeader "Content-Type" "application/json", Effect.writeHeader 201,
       Effect.encodeSignUpResponse { Id := i, Email := e }] ∧
    LoginHandler cfg lib repoAfter rLogin =
      [Effect.setHeader "Content-Type" "application/json",
       Effect.encodeLoginResponse { Token := tok }] ∧
    statusOf (LoginHandler cfg lib repoAfter rLogin) = some 200 ∧
    CheckAuthMiddleware cfg lib rMe =
      [Effect.parseWithClaims tok cfg.JwtSecret, Effect.next] ∧
    MeHandler cfg lib repoAfter rMe =
      [Effect.parseWithClaims tok cfg.JwtSecret,
       Effect.setHeader "Content-Type" "application/json",
       Effect.encodeSignUpResponse { Id := i, Email := e }] ∧
    statusOf (MeHandler cfg lib repoAfter rMe) = some 200 := by
  have hsignup : SignUpHandler lib repo rSignup =
      [Effect.insertUser { Id := i, Email := e, Password := h },
       Effect.setHeader "Content-Type" "application/json", Effect.writeHeader 201,
       Effect.encodeSignUpResponse { Id := i, Email := e }] := by
    have hrun := SignUpHandler_after_hash lib repo rSignup { Email := e, Password := p } i h
      hdecode1 hid hhash
    rw [hrun]
    simp [hinsert]
  have hlogin : LoginHandler cfg lib repoAfter rLogin =
      [Effect.setHeader "Content-Type" "application/json",
       Effect.encodeLoginResponse { Token := tok }] := by
    simp [LoginHandler, hdecode2, hbyEmail, hverify, hsign]
  have hcheck : shouldCheckToken rMe.Path = true := by
    rw [hpath]; decide
  have hgate : CheckAuthMiddleware cfg lib rMe =
      [Effect.parseWithClaims tok cfg.JwtSecret, Effect.next] := by
    simp [CheckAuthMiddleware, hcheck, hheader, htrim, hne, hparse]
  have hme : MeHandler cfg lib repoAfter rMe =
      [Effect.parseWithClaims tok cfg.JwtSecret,
       Effect.setHeader "Content-Type" "application/json",
       Effect.encodeSignUpResponse { Id := i, Email := e }] := by
    have huid : (loginClaims i lib.Now).UserId = i := rfl
    simp [MeHandler, hheader, htrim, hparse, huid, hbyId]
  rw [hsignup, hlogin, hgate, hme]
  simp [statusOf]

/-- In the toy world "ann@x.com" signs up as "u1", logs in for the token "tok-u1" and
reads her identity back from `/me`. -/
theorem C16_signup_login_me_round_trip_witness :
    MeHandler sampleConfig (withValidate sampleCodec sampleLib) sampleRepo
        (requestWith "/me" "tok-u1") =
      [Effect.parseWithClaims "tok-u1" "s3cret",
       Effect.setHeader "Content-Type" "application/json",
       Effect.encodeSignUpResponse { Id := "u1", Email := "ann@x.com" }] :=
  (C16_signup_login_me_round_trip sampleConfig (withValidate sampleCodec sampleLib)
    sampleRepo sampleRepo
    { Path := "/signup", Header := [], Body := "ann" }
    { Path := "/login", Header := [], Body := "ann" } (requestWith "/me" "tok-u1")
    "ann@x.com" "pw" "u1" "hash:pw" "tok-u1" ""
    rfl rfl rfl rfl rfl rfl rfl rfl rfl rfl (by decide) (by decide) rfl rfl).2.2.2.2.1

/-! ### Categories -/

/-- When no row matches, the Postgres `GetCategoryById` returns the zero-valued
category and a nil error. -/
theorem GetCategoryById_no_row (db : CategoryDB) (id : Int)
    (hnorow : db.QueryContext
      "SELECT id, name, created_at, updated_at FROM categories WHERE id = $1"
      [SqlValue.int id] = .ok { scans := [], Err := none }) :
    PostgresRepository.GetCategoryById db id =
      (some { Id := 0, Name := "", CreatedAt := 0, UpdatedAt := 0 }, none) := by
  simp [PostgresRepository.GetCategoryById, hnorow, extractCategoryFromResult,
    extractCategoryFromResultLoop]

/-- C18, what the code does: for an id that matches no row, the Postgres
`GetCategoryById` returns the zero-valued category with a nil error, so
`GetCategoryByIdHandler` writes 200 and encodes that category, not the 404
"category not found" of its `category == nil` branch. -/
theorem C18_missing_category_answered_200 (lib : CategoryLib) (db : CategoryDB)
    (vars : List (String × String)) (id : Int)
    (hid : lib.ParseInt (param vars "id") = .ok id)
    (hnorow : db.QueryContext
      "SELECT id, name, created_at, updated_at FROM categories WHERE id = $1"
      [SqlValue.int id] = .ok { scans := [], Err := none })
    (hencode : lib.Encode { Id := 0, Name := "", CreatedAt := 0, UpdatedAt := 0 } = none) :
    GetCategoryByIdHandler lib (PostgresCategoryRepository db) vars =
      [Effect.writeHeader 200, Effect.setHeader "Content-Type" "application/json",
       Effect.encodeGetCategoryResponse
         { Id := 0, Name := "", CreatedAt := 0, UpdatedAt := 0 }] ∧
    statusOf (GetCategoryByIdHandler lib (PostgresCategoryRepository db) vars) = some 200 ∧
    GetCategoryByIdHandler lib (PostgresCategoryRepository db) vars ≠
      respondError 404 "category not found" := by
  have hz := GetCategoryById_no_row db id hnorow
  have hrun : GetCategoryByIdHandler lib (PostgresCategoryRepository db) vars =
      [Effect.writeHeader 200, Effect.setHeader "Content-Type" "application/json",
       Effect.encodeGetCategoryResponse
         { Id := 0, Name := "", CreatedAt := 0, UpdatedAt := 0 }] := by
    simp [GetCategoryByIdHandler, hid, PostgresCategoryRepository, hz, hencode]
  rw [hrun]
  simp [statusOf, respondError]

/-- The request for the category 999 over a categories table without rows is
answered 200 with the zero-valued category. -/
theorem C18_missing_category_answered_200_witness :
    GetCategoryByIdHandler sampleCategoryLib (PostgresCategoryRepository emptyCategoryDB)
        [("id", "999")] =
      [Effect.writeHeader 200, Effect.setHeader "Content-Type" "application/json",
       Effect.encodeGetCategoryResponse
         { Id := 0, Name := "", CreatedAt := 0, UpdatedAt := 0 }] :=
  (C18_missing_category_answered_200 sampleCategoryLib emptyCategoryDB [("id", "999")] 999
    rfl rfl rfl).1

/-- When the query fails, the Postgres `GetCategoryByName` returns a nil category
together with an error. -/
theorem GetCategoryByName_query_error (db : CategoryDB) (name err : String)
    (hquery : db.QueryContext
      "SELECT id, name, created_at, updated_at FROM categories WHERE name = $1"
      [SqlValue.text name] = .error err) :
    PostgresRepository.GetCategoryByName db name =
      (none, some ("error getting category at GetUserByName: " ++ err)) := by
  simp [PostgresRepository.GetCategoryByName, hquery]

/-- C19, what the code does: when the category exists under another name and
`GetCategoryByName` returns a nil category (with whatever error, which the handler
discards), `UpdateCategoryHandler` panics on `cat.Name` before it has written
anything; over the Postgres store this happens as soon as the query by name fails. -/
theorem C19_update_panics_on_nil_category (lib : CategoryLib) (repo : CategoryRepository)
    (db : CategoryDB) (vars : List (String × String)) (r : Request) (id : Int)
    (req : UpdateCategoryRequest) (category : Category) (err : GoError) (driverErr : String)
    (hid : lib.ParseInt (param vars "id") = .ok id)
    (hdecode : decodeUpdateCategory lib r.Body = .ok req)
    (hfound : repo.GetCategoryById id = (some category, none))
    (hfoundPg : PostgresRepository.GetCategoryById db id = (some category, none))
    (hname : category.Name ≠ req.Name)
    (hnil : repo.GetCategoryByName req.Name = (none, err))
    (hquery : db.QueryContext
      "SELECT id, name, created_at, updated_at FROM categories WHERE name = $1"
      [SqlValue.text req.Name] = .error driverErr) :
    UpdateCategoryHandler lib repo vars r = Run.panicked [] ∧
    UpdateCategoryHandler lib (PostgresCategoryRepository db) vars r = Run.panicked [] ∧
    (∀ effects, UpdateCategoryHandler lib repo vars r ≠ Run.returned effects) := by
  have hrun : UpdateCategoryHandler lib repo vars r = Run.panicked [] := by
    simp [UpdateCategoryHandler, hid, hdecode, hfound, hname, hnil]
  have hpg := GetCategoryByName_query_error db req.Name driverErr hquery
  have hrun2 : UpdateCategoryHandler lib (PostgresCategoryRepository db) vars r =
      Run.panicked [] := by
    simp [UpdateCategoryHandler, hid, hdecode, PostgresCategoryRepository, hfoundPg, hname, hpg]
  rw [hrun, hrun2]
  simp

/-- Renaming the category 7, "music", to "books" while the lookup by name fails in
the driver makes the handler panic. -/
theorem C19_update_panics_on_nil_category_witness :
    UpdateCategoryHandler sampleCategoryLib (PostgresCategoryRepository brokenNameCategoryDB)
        [("id", "7")] { Path := "/categories/7", Header := [], Body := "rename" } =
      Run.panicked [] :=
  (C19_update_panics_on_nil_category sampleCategoryLib
    (PostgresCategoryRepository brokenNameCategoryDB) brokenNameCategoryDB [("id", "7")]
    { Path := "/categories/7", Header := [], Body := "rename" } 7
    { ID := 7, Name := "books" } { Id := 7, Name := "music", CreatedAt := 0, UpdatedAt := 0 }
    (some ("error getting category at GetUserByName: " ++ "driver: bad connection"))
    "driver: bad connection" rfl rfl rfl rfl (by decide) rfl rfl).2.1

end RestWs
